import Mathlib

/-!
Shallow embedding of the Financial Analytics Engine of the family-finance
repository (services/ml.ts, services/health.ts, services/autocategory.ts,
the anomaly-detection service and the analytics aggregation service), with
theorems settling the frozen claims C1-C10.

Conventions of the embedding:
* JavaScript strings are `List Char`; JavaScript numbers are `ℚ` wherever the
  source computes rationally, and `ℝ` where `Math.sqrt` enters.
* A JavaScript arithmetic result that can be `NaN` or `±Infinity` is a value
  of the `JS α` wrapper; `jsDiv` implements IEEE division by zero.
* `new Date()` read inside an engine function is made an explicit `now`
  parameter of the embedded function; dates are calendar triples ordered
  lexicographically, which agrees with timestamp order on valid dates.
-/

namespace FamilyFinance

/-- Strings of the embedded program are lists of characters. -/
abbrev Str := List Char

/-- Converts a Lean string literal to the embedded string type. -/
def sl (s : String) : Str := s.toList

/-- Whether `needle` occurs at the start of `haystack`. -/
def strStartsWith : Str → Str → Bool
  | _, [] => true
  | [], _ :: _ => false
  | c :: cs, d :: ds => c = d && strStartsWith cs ds

/-- JavaScript `haystack.includes(needle)`: substring containment (the empty
needle is contained in every string). -/
def strIncludes : Str → Str → Bool
  | [], needle => needle.isEmpty
  | c :: cs, needle => strStartsWith (c :: cs) needle || strIncludes cs needle

/-- JavaScript number wrapper: a finite value of the carrier, or one of the
non-finite IEEE values produced by division by zero. -/
inductive JS (α : Type) where
  | num (x : α)
  | nan
  | inf
  | ninf
deriving DecidableEq, Repr

/-- True exactly on finite (`num`) values. -/
def JS.isFinite {α : Type} : JS α → Bool
  | .num _ => true
  | _ => false

/-- IEEE-style division on rationals: `a / 0` is `NaN` when `a = 0`, and
`±Infinity` otherwise, following JavaScript semantics. -/
def jsDivQ (a b : ℚ) : JS ℚ :=
  if b = 0 then
    if a = 0 then .nan else if 0 < a then .inf else .ninf
  else .num (a / b)

/-- IEEE-style division on reals (used where a standard deviation, an
irrational value, is divided). -/
noncomputable def jsDivR (a b : ℝ) : JS ℝ :=
  if b = 0 then
    if a = 0 then .nan else if 0 < a then .inf else .ninf
  else .num (a / b)

/-- Multiplication of a JavaScript number by a finite constant. -/
def jsScale (a : JS ℚ) (c : ℚ) : JS ℚ :=
  match a with
  | .num x => .num (x * c)
  | .nan => .nan
  | .inf => if 0 < c then .inf else if c < 0 then .ninf else .nan
  | .ninf => if 0 < c then .ninf else if c < 0 then .inf else .nan

/-- JavaScript `Math.round` on a rational: round half toward positive
infinity. -/
def jsRoundQ (x : ℚ) : ℤ := (x + 1/2).floor

/-- JavaScript `Math.round` on a real. -/
noncomputable def jsRoundR (x : ℝ) : ℤ := ⌊x + 1/2⌋

/-- JavaScript `Math.round` lifted to possibly non-finite numbers
(`Math.round(Infinity) = Infinity`, `Math.round(NaN) = NaN`). -/
def jsRoundJS : JS ℚ → JS ℚ
  | .num x => .num ((jsRoundQ x : ℤ) : ℚ)
  | .nan => .nan
  | .inf => .inf
  | .ninf => .ninf

/-- JavaScript comparison `a < c` for a possibly non-finite `a` and a finite
`c` (`NaN < c` and `Infinity < c` are false). -/
def jsLtC (a : JS ℚ) (c : ℚ) : Bool :=
  match a with
  | .num x => decide (x < c)
  | .nan => false
  | .inf => false
  | .ninf => true

/-- JavaScript comparison `c < a` for finite `c` (`c < NaN` is false and
`c < Infinity` is true). -/
def jsGtC (c : ℚ) (a : JS ℚ) : Bool :=
  match a with
  | .num x => decide (c < x)
  | .nan => false
  | .inf => true
  | .ninf => false

/-- JavaScript comparison `a >= c` for finite `c` (`NaN >= c` is false,
`Infinity >= c` is true). -/
def jsGeC (a : JS ℚ) (c : ℚ) : Bool :=
  match a with
  | .num x => decide (c ≤ x)
  | .nan => false
  | .inf => true
  | .ninf => false

/-- Absolute value of a JavaScript number (`Math.abs`). -/
def jsAbs : JS ℚ → JS ℚ
  | .num x => .num |x|
  | .nan => .nan
  | .inf => .inf
  | .ninf => .inf

/-- Sum of a list of rationals (`reduce((a, b) => a + b, 0)`). -/
def listSum (l : List ℚ) : ℚ := l.foldr (· + ·) 0

/-- Arithmetic mean of a list (used only where the source guards the length,
so the empty case never feeds back into observable output). -/
def listMean (l : List ℚ) : ℚ := listSum l / l.length

/-- Maximum of a list folded with a starting value (`Math.max(...xs, a)`). -/
def listMaxD (l : List ℚ) (a : ℚ) : ℚ := l.foldr max a

/-- Minimum of a nonempty list with a default (`Math.min(...xs)` on the
guarded nonempty case). -/
def listMinD (l : List ℚ) (a : ℚ) : ℚ :=
  match l with
  | [] => a
  | x :: xs => xs.foldr min x

/-- Maximum of a nonempty list with a default. -/
def listMaxND (l : List ℚ) (a : ℚ) : ℚ :=
  match l with
  | [] => a
  | x :: xs => xs.foldr max x

-- ============================================
-- Calendar dates
-- ============================================

/-- A calendar date, as parsed from a `YYYY-MM-DD` transaction date string.
`month` is 1-based. Ordered lexicographically, which matches JavaScript
`Date` timestamp order for valid dates. -/
structure SimpleDate where
  year : ℤ
  month : ℤ
  day : ℤ
deriving DecidableEq, Repr

/-- Lexicographic (timestamp) order on dates, `a <= b`. -/
def dateLe (a b : SimpleDate) : Bool :=
  decide (a.year < b.year) ||
    (a.year = b.year &&
      (decide (a.month < b.month) || (a.month = b.month && decide (a.day ≤ b.day))))

/-- Gregorian leap-year predicate. -/
def isLeapYear (y : ℤ) : Bool :=
  (y % 4 = 0 && y % 100 ≠ 0) || y % 400 = 0

/-- Number of days in a month of a given year. -/
def daysInMonth (y m : ℤ) : ℤ :=
  if m = 1 ∨ m = 3 ∨ m = 5 ∨ m = 7 ∨ m = 8 ∨ m = 10 ∨ m = 12 then 31
  else if m = 4 ∨ m = 6 ∨ m = 9 ∨ m = 11 then 30
  else if isLeapYear y then 29
  else 28

/-- The calendar day before a date (borrowing across month and year ends),
implementing `setDate(getDate() - 1)`. -/
def prevDay (d : SimpleDate) : SimpleDate :=
  if 1 < d.day then ⟨d.year, d.month, d.day - 1⟩
  else if 1 < d.month then ⟨d.year, d.month - 1, daysInMonth d.year (d.month - 1)⟩
  else ⟨d.year - 1, 12, 31⟩

/-- Steps a date back `n` calendar days, implementing
`setDate(getDate() - n)` of the anomaly lookback cutoff. -/
def subDays (d : SimpleDate) : ℕ → SimpleDate
  | 0 => d
  | n + 1 => subDays (prevDay d) n

/-- Serial day number of a proleptic Gregorian date (days-from-civil), used
for the millisecond difference `deadline.getTime() - now.getTime()` scaled to
days in the goals-on-track computation. -/
def dateToDays (d : SimpleDate) : ℤ :=
  let y : ℤ := if d.month ≤ 2 then d.year - 1 else d.year
  let era : ℤ := (if 0 ≤ y then y else y - 399) / 400
  let yoe : ℤ := y - era * 400
  let mp : ℤ := (d.month + 9) % 12
  let doy : ℤ := (153 * mp + 2) / 5 + d.day - 1
  let doe : ℤ := yoe * 365 + yoe / 4 - yoe / 100 + doy
  era * 146097 + doe - 719468

-- ============================================
-- ml.ts : linear regression
-- ============================================

/-- Error taxonomy of the engine: the single loud failure of the regression
primitive. -/
inductive MLError where
  | invalidInput
deriving DecidableEq, Repr

/-- Result record of `linearRegression`. -/
structure LinearRegressionResult where
  slope : ℚ
  intercept : ℚ
  r_squared : ℚ
  prediction : ℚ
  confidence : ℚ
deriving DecidableEq, Repr

/-- Body of `linearRegression` after the input guard: ordinary least squares
over rationals, with the source's explicit zero-denominator guards. -/
def regressionCore (xValues yValues : List ℚ) : LinearRegressionResult :=
  let n : ℚ := xValues.length
  let xMean := listSum xValues / n
  let yMean := listSum yValues / n
  let numerator := listSum ((xValues.zip yValues).map (fun p => (p.1 - xMean) * (p.2 - yMean)))
  let denominator := listSum (xValues.map (fun x => (x - xMean) ^ 2))
  let slope := if denominator ≠ 0 then numerator / denominator else 0
  let intercept := yMean - slope * xMean
  let yPredicted := xValues.map (fun x => slope * x + intercept)
  let ssRes := listSum ((yValues.zip yPredicted).map (fun p => (p.1 - p.2) ^ 2))
  let ssTot := listSum (yValues.map (fun y => (y - yMean) ^ 2))
  let rSquared := if ssTot ≠ 0 then 1 - ssRes / ssTot else 0
  let prediction := slope * n + intercept
  let confidence := min (95/100) (max (1/10) (rSquared * (1 - 1 / n)))
  ⟨slope, intercept, rSquared, max 0 prediction, confidence⟩

/-- Embeds `linearRegression(xValues, yValues)`: throws (`Except.error`) when
the lengths mismatch or fewer than 2 points are supplied, and otherwise
returns the least-squares result. -/
def linearRegression (xValues yValues : List ℚ) :
    Except MLError LinearRegressionResult :=
  if xValues.length ≠ yValues.length ∨ xValues.length < 2 then
    .error .invalidInput
  else
    .ok (regressionCore xValues yValues)

/-- Embeds `predict(regression, x) = Math.max(0, slope * x + intercept)`. -/
def predictAt (r : LinearRegressionResult) (x : ℚ) : ℚ :=
  max 0 (r.slope * x + r.intercept)

-- ============================================
-- ml.ts : standard deviation and trend analysis
-- ============================================

/-- Population variance used inside `calculateStdDev` (the mean of squared
deviations); rational, hence exactly computable. -/
def calculateVariance (values : List ℚ) : ℚ :=
  let mean := listMean values
  listSum (values.map (fun v => (v - mean) ^ 2)) / values.length

/-- Embeds `calculateStdDev`: 0 for fewer than 2 values, square root of the
population variance otherwise. -/
noncomputable def calculateStdDev (values : List ℚ) : ℝ :=
  if values.length < 2 then 0 else Real.sqrt (calculateVariance values)

/-- Direction classification of `analyzeTrend`. -/
inductive TrendDirection where
  | up
  | down
  | stable
deriving DecidableEq, Repr

/-- Result record of `analyzeTrend`. The volatility is a JavaScript number:
`stdDev / average` is not guarded against a zero mean. -/
structure TrendAnalysis where
  direction : TrendDirection
  change_percent : ℚ
  average : ℤ
  min : ℚ
  max : ℚ
  volatility : JS ℝ

/-- Rounds a possibly non-finite real to two decimals
(`Math.round(v * 100) / 100`). -/
noncomputable def jsRound100R : JS ℝ → JS ℝ
  | .num x => .num (((jsRoundR (x * 100) : ℤ) : ℝ) / 100)
  | .nan => .nan
  | .inf => .inf
  | .ninf => .ninf

/-- Embeds `analyzeTrend(values)`: degenerate stable result for fewer than 2
values, else a regression over indices with half-series change percent and
coefficient-of-variation volatility. -/
noncomputable def analyzeTrend (values : List ℚ) : TrendAnalysis :=
  if values.length < 2 then
    ⟨.stable, 0, jsRoundQ (values.headD 0), values.headD 0, values.headD 0, .num 0⟩
  else
    let xValues := (List.range values.length).map (fun i => (i : ℚ))
    let regression := regressionCore xValues values
    let average := listSum values / values.length
    let vmin := listMinD values 0
    let vmax := listMaxND values 0
    let volatility := jsDivR (calculateStdDev values) average
    let halfLen := values.length / 2
    let firstHalfAvg := listSum (values.take halfLen) / (halfLen : ℚ)
    let secondHalfAvg := listSum (values.drop halfLen) / ((values.length - halfLen : ℕ) : ℚ)
    let changePercent :=
      if firstHalfAvg ≠ 0 then (secondHalfAvg - firstHalfAvg) / firstHalfAvg * 100 else 0
    let slopeSignificance := jsDivQ |regression.slope| average
    let direction : TrendDirection :=
      if jsLtC slopeSignificance (2/100) || decide (regression.r_squared < 3/10) then .stable
      else if 0 < regression.slope then .up
      else .down
    ⟨direction, ((jsRoundQ (changePercent * 10) : ℤ) : ℚ) / 10, jsRoundQ average,
      vmin, vmax, jsRound100R volatility⟩

-- ============================================
-- ml.ts : anomaly detection primitives
-- ============================================

/-- Result record of the Z-score test `isAnomaly`. The `zScore` field holds
the rounded score, which is rational (or `Infinity` in the degenerate
zero-deviation case). -/
structure ZScoreResult where
  isAnomaly : Bool
  zScore : JS ℚ
  rangeLo : JS ℚ
  rangeHi : JS ℚ
deriving DecidableEq, Repr

open Classical in
/-- Embeds `isAnomaly(value, historicalValues, threshold)`: never anomalous
under 5 points; with zero standard deviation, anomalous iff the value differs
from the mean; otherwise a Z-score threshold test. -/
noncomputable def isAnomalyZ (value : ℚ) (historicalValues : List ℚ)
    (threshold : ℚ) : ZScoreResult :=
  if historicalValues.length < 5 then
    ⟨false, .num 0, .num 0, .inf⟩
  else
    let mean := listMean historicalValues
    let stdDev := calculateStdDev historicalValues
    if stdDev = 0 then
      ⟨decide (value ≠ mean), if value = mean then .num 0 else .inf, .num mean, .num mean⟩
    else
      let zScore : ℝ := ((value : ℝ) - (mean : ℝ)) / stdDev
      ⟨decide (|zScore| > (threshold : ℝ)),
        .num ((jsRoundR (zScore * 100) : ℤ) / 100),
        .num ((jsRoundR ((mean : ℝ) - (threshold : ℝ) * stdDev) : ℤ) : ℚ),
        .num ((jsRoundR ((mean : ℝ) + (threshold : ℝ) * stdDev) : ℤ) : ℚ)⟩

/-- Severity tiers of the IQR test. -/
inductive IQRSeverity where
  | mild
  | extreme
  | none
deriving DecidableEq, Repr

/-- Embeds `percentile(sortedValues, p)` with linear interpolation between
the two neighbouring ranks. -/
def percentile (sortedValues : List ℚ) (p : ℚ) : ℚ :=
  let index := p / 100 * ((sortedValues.length : ℚ) - 1)
  let lower := index.floor
  let upper := index.ceil
  if lower = upper then sortedValues.getD lower.toNat 0
  else
    let weight := index - lower
    sortedValues.getD lower.toNat 0 * (1 - weight) +
      sortedValues.getD upper.toNat 0 * weight

/-- Ascending numeric sort (`[...xs].sort((a, b) => a - b)`). -/
def sortAsc (l : List ℚ) : List ℚ := List.insertionSort (· ≤ ·) l

/-- Embeds `detectAnomaliesIQR(value, historicalValues, multiplier)`:
requires at least 4 points; `extreme` outside the 3×IQR fences, `mild`
outside the multiplier fences, `none` otherwise. -/
def detectAnomaliesIQR (value : ℚ) (historicalValues : List ℚ)
    (multiplier : ℚ) : Bool × IQRSeverity :=
  if historicalValues.length < 4 then (false, .none)
  else
    let sorted := sortAsc historicalValues
    let q1 := percentile sorted 25
    let q3 := percentile sorted 75
    let iqr := q3 - q1
    let lowerBound := q1 - multiplier * iqr
    let upperBound := q3 + multiplier * iqr
    let extremeLower := q1 - 3 * iqr
    let extremeUpper := q3 + 3 * iqr
    if value < extremeLower ∨ value > extremeUpper then (true, .extreme)
    else if value < lowerBound ∨ value > upperBound then (true, .mild)
    else (false, .none)

-- ============================================
-- Data model
-- ============================================

/-- Transaction type enumeration. -/
inductive TxType where
  | income
  | expense
  | transfer
deriving DecidableEq, Repr

/-- Category record (the fields the engine reads). -/
structure Category where
  id : Str
  name : Str
  keywords : List Str
deriving DecidableEq, Repr

/-- Transaction record (the fields the engine reads). `category` is the
optional joined category object. -/
structure Transaction where
  id : Str
  ttype : TxType
  amount : ℚ
  category_id : Option Str
  date : SimpleDate
  is_credit : Bool
  description : Option Str
  category : Option Category
deriving DecidableEq, Repr

/-- JavaScript truthiness of an optional string: `undefined` and the empty
string are falsy. -/
def jsTruthyOptStr : Option Str → Bool
  | some s => !s.isEmpty
  | none => false

-- ============================================
-- Anomaly detection service
-- ============================================

/-- Configuration of the anomaly detector (the merge of the caller's partial
configuration over the defaults). -/
structure AnomalyDetectionConfig where
  amount_threshold : ℚ
  lookback_days : ℕ
  min_transactions : ℕ
  iqr_multiplier : ℚ
deriving DecidableEq, Repr

/-- Embeds `DEFAULT_CONFIG` of the anomaly service. -/
def defaultAnomalyConfig : AnomalyDetectionConfig :=
  ⟨5/2, 90, 5, 3/2⟩

/-- Anomaly type enumeration. -/
inductive AnomalyType where
  | high_amount
  | unusual_category
  | frequency
  | new_merchant
deriving DecidableEq, Repr

/-- Anomaly severity enumeration. -/
inductive AnomalySeverity where
  | info
  | warning
  | alert
deriving DecidableEq, Repr

/-- Detected anomaly record: the type, the severity and the numeric details
payload of the source (the free-text `message` carries no further data and is
not modelled). Fields unused by a given check are `none`. -/
structure DetectedAnomaly where
  type : AnomalyType
  severity : AnomalySeverity
  transaction_id : Option Str
  categoryLabel : Option Str
  expected_value : Option ℚ
  actual_value : Option ℚ
  z_score : Option (JS ℚ)
  historical_average : Option (JS ℚ)
  deviation_percent : Option (JS ℚ)
deriving DecidableEq, Repr

/-- Embeds `detectHighAmount(transaction, history, config)`: the overall
Z-score check with severity tiers on the rounded score. -/
noncomputable def detectHighAmount (transaction : Transaction)
    (history : List Transaction) (config : AnomalyDetectionConfig) :
    Option DetectedAnomaly :=
  let amounts := history.map (·.amount)
  if amounts.length < config.min_transactions then none
  else
    let result := isAnomalyZ transaction.amount amounts config.amount_threshold
    if !result.isAnomaly then none
    else
      let avg := listMean amounts
      let deviationPercent := jsScale (jsDivQ (transaction.amount - avg) avg) 100
      let severity : AnomalySeverity :=
        if jsGtC 4 (jsAbs result.zScore) then .alert
        else if jsGtC 3 (jsAbs result.zScore) then .warning
        else .info
      some
        { type := .high_amount
          severity := severity
          transaction_id := some transaction.id
          categoryLabel := none
          expected_value := some ((jsRoundQ avg : ℤ) : ℚ)
          actual_value := some transaction.amount
          z_score := some result.zScore
          historical_average := some (.num ((jsRoundQ avg : ℤ) : ℚ))
          deviation_percent := some (jsRoundJS deviationPercent) }

/-- Embeds `detectCategoryAnomaly(transaction, history, config)`: the IQR
check restricted to the transaction's category. -/
def detectCategoryAnomaly (transaction : Transaction)
    (history : List Transaction) (config : AnomalyDetectionConfig) :
    Option DetectedAnomaly :=
  let categoryHistory := history.filter (fun t => t.category_id == transaction.category_id)
  if categoryHistory.length < config.min_transactions then none
  else
    let amounts := categoryHistory.map (·.amount)
    let iqrResult := detectAnomaliesIQR transaction.amount amounts config.iqr_multiplier
    if !iqrResult.1 then none
    else
      let avg := listMean amounts
      let label : Str :=
        match transaction.category with
        | some c => if c.name.isEmpty then sl ("категории") else c.name
        | none => sl ("категории")
      some
        { type := .unusual_category
          severity := if iqrResult.2 = .extreme then .alert else .warning
          transaction_id := some transaction.id
          categoryLabel := some label
          expected_value := some ((jsRoundQ avg : ℤ) : ℚ)
          actual_value := some transaction.amount
          z_score := none
          historical_average := some (.num ((jsRoundQ avg : ℤ) : ℚ))
          deviation_percent := none }

/-- Embeds `detectUnusualCategory(transaction, history, categories, config)`:
flags a rarely used category when the history holds more than 20 entries and
the category's share is below 2%. -/
def detectUnusualCategory (transaction : Transaction)
    (history : List Transaction) (categories : List Category)
    (_config : AnomalyDetectionConfig) : Option DetectedAnomaly :=
  if !(jsTruthyOptStr transaction.category_id) then none
  else
    let thisCount := (history.filter (fun t => t.category_id == transaction.category_id)).length
    let totalTransactions := history.length
    if decide (20 < totalTransactions) &&
        decide ((thisCount : ℚ) / (totalTransactions : ℚ) < 2/100) then
      let category := categories.find? (fun c => some c.id == transaction.category_id)
      some
        { type := .new_merchant
          severity := .info
          transaction_id := some transaction.id
          categoryLabel := category.map (·.name)
          expected_value := none
          actual_value := none
          z_score := none
          historical_average := none
          deviation_percent := none }
    else none

/-- Embeds `detectFrequencyAnomaly(transaction, history, config)`: flags the
same-day transaction count when it exceeds both 10 and three times the
average daily count of the supplied history. -/
def detectFrequencyAnomaly (transaction : Transaction)
    (history : List Transaction) (config : AnomalyDetectionConfig) :
    Option DetectedAnomaly :=
  let sameDay := history.filter (fun t => t.date == transaction.date)
  let avgDailyTransactions := jsDivQ (history.length : ℚ) (config.lookback_days : ℚ)
  if decide (10 < sameDay.length) &&
      jsLtC (jsScale avgDailyTransactions 3) (sameDay.length : ℚ) then
    some
      { type := .frequency
        severity := .warning
        transaction_id := none
        categoryLabel := none
        expected_value := none
        actual_value := some ((sameDay.length : ℚ) + 1)
        z_score := none
        historical_average := some (jsRoundJS avgDailyTransactions)
        deviation_percent := none }
  else none

/-- The lookback-window filter of `detectTransactionAnomalies`: expenses
within `lookback_days` of `now`, excluding the analyzed transaction. -/
def relevantHistory (transaction : Transaction)
    (config : AnomalyDetectionConfig) (now : SimpleDate)
    (historicalTransactions : List Transaction) : List Transaction :=
  let cutoffDate := subDays now config.lookback_days
  historicalTransactions.filter (fun t =>
    t.ttype == .expense && dateLe cutoffDate t.date && !(t.id == transaction.id))

/-- Embeds `detectTransactionAnomalies(transaction, historicalTransactions,
categories, config)`. The internal `new Date()` is the explicit `now`
parameter. The first three checks receive the filtered window; the frequency
check receives the unfiltered `historicalTransactions`, exactly as in the
source. -/
noncomputable def detectTransactionAnomalies (transaction : Transaction)
    (historicalTransactions : List Transaction) (categories : List Category)
    (config : AnomalyDetectionConfig) (now : SimpleDate) :
    List DetectedAnomaly :=
  if transaction.ttype ≠ .expense then []
  else
    let relevant := relevantHistory transaction config now historicalTransactions
    (detectHighAmount transaction relevant config).toList ++
      (if jsTruthyOptStr transaction.category_id then
        (detectCategoryAnomaly transaction relevant config).toList
      else []) ++
      (detectUnusualCategory transaction relevant categories config).toList ++
      (detectFrequencyAnomaly transaction historicalTransactions config).toList

/-- Assembly of the four checks from an explicitly supplied pair of history
lists, following the amended reading of claim C5: the high-amount, category
and unusual-category checks run on the `relevant` (windowed) list, and the
frequency check runs on the `full` unfiltered list. -/
noncomputable def detectChecksSplit (transaction : Transaction)
    (relevant full : List Transaction) (categories : List Category)
    (config : AnomalyDetectionConfig) : List DetectedAnomaly :=
  if transaction.ttype ≠ .expense then []
  else
    (detectHighAmount transaction relevant config).toList ++
      (if jsTruthyOptStr transaction.category_id then
        (detectCategoryAnomaly transaction relevant config).toList
      else []) ++
      (detectUnusualCategory transaction relevant categories config).toList ++
      (detectFrequencyAnomaly transaction full config).toList

-- ============================================
-- Health service : data model
-- ============================================

/-- Budget record (the fields the engine reads). -/
structure Budget where
  id : Str
  category_id : Option Str
  name : Str
  amount : ℚ
  alert_threshold : ℚ
  is_active : Bool
deriving DecidableEq, Repr

/-- Goal record (the fields the engine reads). -/
structure Goal where
  target_amount : ℚ
  current_amount : ℚ
  deadline : Option SimpleDate
  is_completed : Bool
deriving DecidableEq, Repr

/-- Health snapshot record (the fields `calculateComparison` reads). -/
structure HealthSnapshot where
  snapshot_date : SimpleDate
  overall_score : ℚ
deriving DecidableEq, Repr

/-- Trend label of the metrics record. -/
inductive MetricTrend where
  | increasing
  | decreasing
  | stable
deriving DecidableEq, Repr

/-- Metrics record of `calculateMetrics`. -/
structure HealthMetrics where
  total_income : ℚ
  total_expense : ℚ
  net_savings : ℚ
  savings_rate : ℚ
  budgets_on_track : ℕ
  budgets_exceeded : ℕ
  budget_adherence_rate : ℚ
  avg_daily_expense : ℤ
  expense_volatility : ℝ
  largest_expense : ℚ
  credit_usage : ℚ
  credit_ratio : ℚ
  goals_progress : ℚ
  goals_on_track : ℕ
  expense_trend : MetricTrend
  income_trend : MetricTrend

-- ============================================
-- Health service : helpers
-- ============================================

/-- Insertion-ordered accumulation into an association list, modelling a
JavaScript object keyed by non-integer strings (`byDay[day] += amount`). -/
def upsertAdd {κ : Type} [DecidableEq κ] (key : κ) (v : ℚ) :
    List (κ × ℚ) → List (κ × ℚ)
  | [] => [(key, v)]
  | (k, x) :: rest =>
    if k = key then (k, x + v) :: rest else (k, x) :: upsertAdd key v rest

/-- Embeds `calculateDailyExpenses`: sums amounts per calendar day and
returns the sums in first-occurrence order (`Object.values`). -/
def calculateDailyExpenses (transactions : List Transaction) : List ℚ :=
  (transactions.foldl (fun acc t => upsertAdd t.date t.amount acc) []).map (·.2)

/-- Embeds `calculateVolatility`: coefficient of variation of a series,
guarded to 0 for fewer than 2 values or a zero mean. -/
noncomputable def calculateVolatility (values : List ℚ) : ℝ :=
  if values.length < 2 then 0
  else
    let mean := listMean values
    if mean = 0 then 0
    else Real.sqrt ((calculateVariance values : ℚ) : ℝ) / (mean : ℝ)

/-- Adds a transaction's amount into a month accumulator pair
`(income, expense)`; transfers touch neither component. -/
def monthAdd (v : ℚ × ℚ) (t : Transaction) : ℚ × ℚ :=
  match t.ttype with
  | .income => (v.1 + t.amount, v.2)
  | .expense => (v.1, v.2 + t.amount)
  | .transfer => v

/-- Insertion-ordered monthly accumulation (`byMonth[month]`); an entry is
created for every transaction's month, including transfers. -/
def monthUpsert (key : ℤ × ℤ) (t : Transaction) :
    List ((ℤ × ℤ) × ℚ × ℚ) → List ((ℤ × ℤ) × ℚ × ℚ)
  | [] => [(key, monthAdd (0, 0) t)]
  | (k, v) :: rest =>
    if k = key then (k, monthAdd v t) :: rest else (k, v) :: monthUpsert key t rest

/-- Embeds `aggregateMonthly`: income/expense totals per `YYYY-MM` month,
sorted ascending by month key (string `localeCompare` equals the
year-then-month order for four-digit years). -/
def aggregateMonthly (transactions : List Transaction) :
    List ((ℤ × ℤ) × ℚ × ℚ) :=
  List.insertionSort
    (fun a b => a.1.1 < b.1.1 ∨ (a.1.1 = b.1.1 ∧ a.1.2 ≤ b.1.2))
    (transactions.foldl
      (fun acc t => monthUpsert (t.date.year, t.date.month) t acc) [])

/-- The spent amount `calculateMetrics` attributes to a budget: the sum over
the month's expense transactions whose `category_id` strictly equals the
budget's `category_id` (an absent id only equals an absent id). -/
def budgetSpent (budget : Budget) (expenseTransactions : List Transaction) : ℚ :=
  listSum ((expenseTransactions.filter
    (fun t => t.category_id == budget.category_id)).map (·.amount))

/-- Whether a goal is on track: either no deadline, or the current average
daily savings reach 80% of the required daily amount until the deadline. -/
def goalOnTrack (g : Goal) (net_savings : ℚ) (now : SimpleDate) : Bool :=
  match g.deadline with
  | none => true
  | some deadline =>
    let remaining := g.target_amount - g.current_amount
    let daysLeft : ℚ := max 1 ((dateToDays deadline - dateToDays now : ℤ) : ℚ)
    let requiredDaily := remaining / daysLeft
    let avgDailySavings := net_savings / (now.day : ℚ)
    decide (requiredDaily * (8/10) ≤ avgDailySavings)

/-- Maps a trend direction to the metrics trend label. -/
def dirToMetric : TrendDirection → MetricTrend
  | .up => .increasing
  | .down => .decreasing
  | .stable => .stable

/-- Embeds `calculateMetrics(transactions, budgets, goals)`. The source reads
the wall clock (`const now = new Date()`); that read is the explicit `now`
parameter here. -/
noncomputable def calculateMetrics (transactions : List Transaction)
    (budgets : List Budget) (goals : List Goal) (now : SimpleDate) :
    HealthMetrics :=
  let monthStart : SimpleDate := ⟨now.year, now.month, 1⟩
  let monthTransactions := transactions.filter (fun t => dateLe monthStart t.date)
  let incomeTransactions := monthTransactions.filter (fun t => t.ttype == .income)
  let expenseTransactions := monthTransactions.filter (fun t => t.ttype == .expense)
  let total_income := listSum (incomeTransactions.map (·.amount))
  let total_expense := listSum (expenseTransactions.map (·.amount))
  let net_savings := total_income - total_expense
  let savings_rate := if 0 < total_income then net_savings / total_income else 0
  let activeBudgets := budgets.filter (·.is_active)
  let budgets_on_track :=
    (activeBudgets.filter (fun b => budgetSpent b expenseTransactions ≤ b.amount)).length
  let budgets_exceeded :=
    (activeBudgets.filter (fun b => ¬(budgetSpent b expenseTransactions ≤ b.amount))).length
  let budget_adherence_rate :=
    if 0 < activeBudgets.length then (budgets_on_track : ℚ) / (activeBudgets.length : ℚ)
    else 1
  let dailyExpenses := calculateDailyExpenses expenseTransactions
  let avg_daily_expense :=
    if 0 < dailyExpenses.length then listSum dailyExpenses / (dailyExpenses.length : ℚ)
    else 0
  let expense_volatility := calculateVolatility dailyExpenses
  let largest_expense := listMaxD (expenseTransactions.map (·.amount)) 0
  let creditTransactions := expenseTransactions.filter (·.is_credit)
  let credit_usage := listSum (creditTransactions.map (·.amount))
  let credit_ratio := if 0 < total_expense then credit_usage / total_expense else 0
  let activeGoals := goals.filter (fun g => !g.is_completed)
  let goals_progress :=
    if 0 < activeGoals.length then
      listSum (activeGoals.map (fun g =>
        min 1 (if 0 < g.target_amount then g.current_amount / g.target_amount else 0))) /
        (activeGoals.length : ℚ)
    else 1
  let goals_on_track := (activeGoals.filter (fun g => goalOnTrack g net_savings now)).length
  let monthlyData := aggregateMonthly transactions
  let expenseTrend := analyzeTrend (monthlyData.map (fun m => m.2.2))
  let incomeTrend := analyzeTrend (monthlyData.map (fun m => m.2.1))
  { total_income := total_income
    total_expense := total_expense
    net_savings := net_savings
    savings_rate := savings_rate
    budgets_on_track := budgets_on_track
    budgets_exceeded := budgets_exceeded
    budget_adherence_rate := budget_adherence_rate
    avg_daily_expense := jsRoundQ avg_daily_expense
    expense_volatility := expense_volatility
    largest_expense := largest_expense
    credit_usage := credit_usage
    credit_ratio := credit_ratio
    goals_progress := goals_progress
    goals_on_track := goals_on_track
    expense_trend := dirToMetric expenseTrend.direction
    income_trend := dirToMetric incomeTrend.direction }

-- ============================================
-- Health service : scores
-- ============================================

/-- Scoring weights of the overall health score. -/
structure HealthWeights where
  savings : ℚ
  budget : ℚ
  debt : ℚ
  stability : ℚ
deriving DecidableEq, Repr

/-- Embeds the `WEIGHTS` constant of the health service. -/
def WEIGHTS : HealthWeights := ⟨30/100, 25/100, 20/100, 25/100⟩

/-- Embeds `calculateSavingsScore`: piecewise-linear interpolation across the
savings-rate thresholds 0.20 / 0.10 / 0.05 / 0. -/
def calculateSavingsScore (metrics : HealthMetrics) : ℚ :=
  let rate := metrics.savings_rate
  if 20/100 ≤ rate then 100
  else if 10/100 ≤ rate then 70 + 30 * (rate - 10/100) / (20/100 - 10/100)
  else if 5/100 ≤ rate then 40 + 30 * (rate - 5/100) / (10/100 - 5/100)
  else if 0 < rate then 40 * rate / (5/100)
  else max 0 (20 + rate * 100)

/-- Embeds `calculateBudgetScore`: 70 when no budgets were counted, else
interpolation across the adherence thresholds 0.90 / 0.70 / 0.50. -/
def calculateBudgetScore (metrics : HealthMetrics) : ℚ :=
  let rate := metrics.budget_adherence_rate
  if metrics.budgets_on_track + metrics.budgets_exceeded = 0 then 70
  else if 90/100 ≤ rate then 100
  else if 70/100 ≤ rate then 70 + 30 * (rate - 70/100) / (90/100 - 70/100)
  else if 50/100 ≤ rate then 40 + 30 * (rate - 50/100) / (70/100 - 50/100)
  else 40 * rate / (50/100)

/-- Embeds `calculateDebtScore`: interpolation across the credit-ratio
thresholds 0.10 / 0.20 / 0.40, clamped at 0 above. -/
def calculateDebtScore (metrics : HealthMetrics) : ℚ :=
  let ratio := metrics.credit_ratio
  if ratio = 0 then 100
  else if ratio ≤ 10/100 then 100
  else if ratio ≤ 20/100 then 70 + 30 * (20/100 - ratio) / (20/100 - 10/100)
  else if ratio ≤ 40/100 then 40 + 30 * (40/100 - ratio) / (40/100 - 20/100)
  else max 0 (40 - (ratio - 40/100) * 100)

open Classical in
/-- Embeds `calculateStabilityScore`: interpolation across the volatility
thresholds 0.15 / 0.25 / 0.40, minus 10 points for a rising expense trend
and 10 for a falling income trend, clamped at 0. -/
noncomputable def calculateStabilityScore (metrics : HealthMetrics) : ℝ :=
  let volatility := metrics.expense_volatility
  let trendPenalty : ℝ :=
    (if metrics.expense_trend = .increasing then 10 else 0) +
      (if metrics.income_trend = .decreasing then 10 else 0)
  let baseScore : ℝ :=
    if volatility ≤ 15/100 then 100
    else if volatility ≤ 25/100 then 70 + 30 * (25/100 - volatility) / (25/100 - 15/100)
    else if volatility ≤ 40/100 then 40 + 30 * (40/100 - volatility) / (40/100 - 25/100)
    else max 0 (40 - (volatility - 40/100) * 50)
  max 0 (baseScore - trendPenalty)

/-- Grade letters. -/
inductive Grade where
  | A
  | B
  | C
  | D
  | F
deriving DecidableEq, Repr

/-- Grade with its canned emoji and summary strings. -/
structure GradeInfo where
  grade : Grade
  emoji : Str
  summary : Str
deriving DecidableEq, Repr

/-- Embeds `getGradeInfo` over the rounded overall score. -/
def getGradeInfo (score : ℤ) : GradeInfo :=
  if 90 ≤ score then ⟨.A, sl ("🌟"), sl ("Отличное финансовое здоровье!")⟩
  else if 75 ≤ score then ⟨.B, sl ("😊"), sl ("Хорошее состояние финансов")⟩
  else if 60 ≤ score then ⟨.C, sl ("😐"), sl ("Есть над чем поработать")⟩
  else if 40 ≤ score then ⟨.D, sl ("😟"), sl ("Требуется внимание к финансам")⟩
  else ⟨.F, sl ("🚨"), sl ("Критическая ситуация")⟩

/-- Score record of the health analysis. -/
structure HealthScore where
  overall : ℤ
  savings : ℚ
  budget : ℚ
  debt : ℚ
  stability : ℝ
  grade : Grade
  emoji : Str
  summary : Str

-- ============================================
-- Health service : recommendations and comparison
-- ============================================

/-- Recommendation category enumeration. -/
inductive RecCategory where
  | savings
  | budget
  | debt
  | stability
  | general
deriving DecidableEq, Repr

/-- Recommendation priority enumeration. -/
inductive RecPriority where
  | high
  | medium
  | low
deriving DecidableEq, Repr

/-- Recommendation record: the category and priority of each fired rule (the
fixed display strings carry no further data and are not modelled). -/
structure HealthRecommendation where
  category : RecCategory
  priority : RecPriority
deriving DecidableEq, Repr

/-- Numeric order of priorities used by the final sort. -/
def priorityOrder : RecPriority → ℕ
  | .high => 0
  | .medium => 1
  | .low => 2

open Classical in
/-- Embeds `generateRecommendations(score, metrics)`: the fixed rule cascade
with a generic positive fallback, sorted high before medium before low. -/
noncomputable def generateRecommendations (score : HealthScore)
    (metrics : HealthMetrics) : List HealthRecommendation :=
  let recs : List HealthRecommendation :=
    (if score.savings < 60 then
      (if metrics.savings_rate < 0 then [⟨.savings, .high⟩]
       else if metrics.savings_rate < 5/100 then [⟨.savings, .medium⟩]
       else [])
    else []) ++
    (if score.budget < 60 then
      [⟨.budget, if 2 < metrics.budgets_exceeded then .high else .medium⟩]
    else []) ++
    (if score.debt < 60 then
      [⟨.debt, if 3/10 < metrics.credit_ratio then .high else .medium⟩]
    else []) ++
    (if score.stability < 60 then
      (if (4/10 : ℝ) < metrics.expense_volatility then [⟨.stability, .low⟩] else []) ++
        (if metrics.expense_trend = .increasing then [⟨.stability, .medium⟩] else [])
    else [])
  let recs' := if recs.isEmpty then [⟨.general, .low⟩] else recs
  List.insertionSort (fun a b => priorityOrder a.priority ≤ priorityOrder b.priority) recs'

/-- JavaScript `a || b` over an optional number: `undefined` and 0 fall back
to `b`. -/
def jsOrNum (a : Option ℚ) (b : ℚ) : ℚ :=
  match a with
  | some x => if x = 0 then b else x
  | none => b

/-- Embeds `calculateComparison(currentScore, snapshots)`: deltas against the
most recent and the third most recent snapshot (sorted by date descending),
with `|| fallback` semantics on missing entries. -/
def calculateComparison (currentScore : ℤ) (snapshots : List HealthSnapshot) :
    ℚ × ℚ :=
  if snapshots.isEmpty then (0, 0)
  else
    let sorted := List.insertionSort
      (fun a b : HealthSnapshot => dateLe b.snapshot_date a.snapshot_date = true) snapshots
    let lastMonth := jsOrNum ((sorted.get? 0).map (·.overall_score)) (currentScore : ℚ)
    let lastQuarter := jsOrNum ((sorted.get? 2).map (·.overall_score)) lastMonth
    ((currentScore : ℚ) - lastMonth, (currentScore : ℚ) - lastQuarter)

/-- Trends block of the health analysis. -/
structure TrendsTriple where
  income : TrendAnalysis
  expense : TrendAnalysis
  savings : TrendAnalysis

/-- Health analysis result record. -/
structure HealthAnalysis where
  score : HealthScore
  metrics : HealthMetrics
  recommendations : List HealthRecommendation
  trends : TrendsTriple
  comparison : ℚ × ℚ

/-- Embeds `analyzeFinancialHealth(transactions, budgets, goals,
previousSnapshots)`. The wall-clock date read inside `calculateMetrics` is
the explicit `now` parameter. -/
noncomputable def analyzeFinancialHealth (transactions : List Transaction)
    (budgets : List Budget) (goals : List Goal)
    (previousSnapshots : List HealthSnapshot) (now : SimpleDate) :
    HealthAnalysis :=
  let metrics := calculateMetrics transactions budgets goals now
  let savingsScore := calculateSavingsScore metrics
  let budgetScore := calculateBudgetScore metrics
  let debtScore := calculateDebtScore metrics
  let stabilityScore := calculateStabilityScore metrics
  let overall : ℤ := jsRoundR
    ((savingsScore : ℝ) * (WEIGHTS.savings : ℝ) +
      (budgetScore : ℝ) * (WEIGHTS.budget : ℝ) +
      (debtScore : ℝ) * (WEIGHTS.debt : ℝ) +
      stabilityScore * (WEIGHTS.stability : ℝ))
  let gradeInfo := getGradeInfo overall
  let score : HealthScore :=
    { overall := overall
      savings := savingsScore
      budget := budgetScore
      debt := debtScore
      stability := stabilityScore
      grade := gradeInfo.grade
      emoji := gradeInfo.emoji
      summary := gradeInfo.summary }
  let recommendations := generateRecommendations score metrics
  let monthlyData := aggregateMonthly transactions
  let trends : TrendsTriple :=
    ⟨analyzeTrend (monthlyData.map (fun m => m.2.1)),
      analyzeTrend (monthlyData.map (fun m => m.2.2)),
      analyzeTrend (monthlyData.map (fun m => m.2.1 - m.2.2))⟩
  let comparison := calculateComparison overall previousSnapshots
  ⟨score, metrics, recommendations, trends, comparison⟩

-- ============================================
-- Analytics service : budget alerts
-- ============================================

/-- Budget alert record of `getBudgetAlerts` (display-only name fields are
not modelled). -/
structure BudgetAlert where
  budget_id : Str
  spent : ℚ
  limitAmount : ℚ
  percentage : JS ℚ
deriving DecidableEq, Repr

/-- Total order used to embed the descending-percentage sort of the alerts.
The source comparator `b.percentage - a.percentage` is well defined on
finite percentages; this order extends it totally to the non-finite cases,
on which JavaScript `sort` is unspecified. -/
def jsPercGe (a b : JS ℚ) : Bool :=
  match a, b with
  | .num x, .num y => decide (y ≤ x)
  | .inf, _ => true
  | _, .inf => false
  | .num _, _ => true
  | _, .num _ => false
  | _, _ => true

/-- Embeds `getBudgetAlerts(budgets, expenses)` of the analytics service:
per active budget, sums the expenses whose `category_id` strictly equals the
budget's, and emits an alert when the rounded percentage reaches the
threshold. -/
def getBudgetAlerts (budgets : List Budget) (expenses : List Transaction) :
    List BudgetAlert :=
  let alerts := (budgets.filter (·.is_active)).filterMap (fun budget =>
    let categoryExpenses := expenses.filter (fun e => e.category_id == budget.category_id)
    let spent := listSum (categoryExpenses.map (·.amount))
    let percentage := jsRoundJS (jsScale (jsDivQ spent budget.amount) 100)
    if jsGeC percentage budget.alert_threshold then
      some ⟨budget.id, spent, budget.amount, percentage⟩
    else none)
  List.insertionSort (fun a b => jsPercGe a.percentage b.percentage = true) alerts

-- ============================================
-- Categorizer : text normalization
-- ============================================

/-- Lower-cases Latin and Cyrillic letters (the alphabet the normalizer
keeps), embedding `toLowerCase` on the relevant character range. -/
def charLower (c : Char) : Char :=
  if 'A' ≤ c ∧ c ≤ 'Z' then Char.ofNat (c.toNat + 32)
  else if 'А' ≤ c ∧ c ≤ 'Я' then Char.ofNat (c.toNat + 32)
  else if c = 'Ё' then 'ё'
  else c

/-- Embeds the replacement `ё → е`. -/
def foldYo (c : Char) : Char := if c = 'ё' then 'е' else c

/-- ASCII whitespace class of the `\s` regex escape. -/
def isSpaceChar (c : Char) : Bool :=
  c = ' ' || c = '\t' || c = '\n' || c = '\r' || c = '\x0b' || c = '\x0c'

/-- Characters kept by the strip step `[^a-zа-я0-9\s] → ' '`. -/
def isKeptChar (c : Char) : Bool :=
  ('a' ≤ c && c ≤ 'z') || ('а' ≤ c && c ≤ 'я') || ('0' ≤ c && c ≤ '9') ||
    isSpaceChar c

/-- Replaces a disallowed character by a space. -/
def sanitizeChar (c : Char) : Char := if isKeptChar c then c else ' '

/-- Collapses every whitespace run to a single space (`\s+ → ' '`); the flag
records whether the previous character belonged to a run. -/
def collapseAux : Bool → Str → Str
  | _, [] => []
  | prevSpace, c :: cs =>
    if isSpaceChar c then
      if prevSpace then collapseAux true cs else ' ' :: collapseAux true cs
    else c :: collapseAux false cs

/-- JavaScript `trim`: drops whitespace at both ends. -/
def trimStr (s : Str) : Str :=
  ((s.dropWhile isSpaceChar).reverse.dropWhile isSpaceChar).reverse

/-- Embeds `normalizeText`: lowercase, fold `ё → е`, strip everything except
Latin/Cyrillic letters, digits and whitespace, collapse whitespace, trim. -/
def normalizeText (text : Str) : Str :=
  trimStr (collapseAux false (((text.map charLower).map foldYo).map sanitizeChar))

-- ============================================
-- Categorizer : pattern matching
-- ============================================

/-- Matches the wildcard pattern (`*` any sequence, `?` any character, other
characters literal and case-insensitive) against a prefix of the text; this
is the regex built by `matchesPattern` after escaping. -/
def patMatchHere : Str → Str → Bool
  | [], _ => true
  | '*' :: ps, t =>
    patMatchHere ps t ||
      (match t with
       | [] => false
       | _ :: ts => patMatchHere ('*' :: ps) ts)
  | '?' :: ps, t =>
    (match t with
     | [] => false
     | _ :: ts => patMatchHere ps ts)
  | c :: ps, t =>
    (match t with
     | [] => false
     | d :: ts => charLower c == charLower d && patMatchHere ps ts)
termination_by p t => (p.length, t.length)

/-- Embeds `matchesPattern(text, pattern)`: `regex.test` searches for a
match starting at any position. The escaping in the source never produces an
invalid regex, so the substring-containment catch branch is dead. -/
def matchesPattern (text pattern : Str) : Bool :=
  text.tails.any (fun suffix => patMatchHere pattern suffix)

-- ============================================
-- Categorizer : data model
-- ============================================

/-- Match origin tags of intermediate categorizer candidates. -/
inductive MatchType where
  | keyword
  | pattern
  | history
  | fuzzy
deriving DecidableEq, Repr

/-- Intermediate match candidate of `predictCategory`. -/
structure MatchResult where
  categoryId : Str
  categoryName : Str
  confidence : ℚ
  matchedKeyword : Option Str
  matchType : MatchType
deriving DecidableEq, Repr

/-- Custom categorization rule (the fields the categorizer reads). -/
structure CategoryRule where
  category_id : Str
  pattern : Str
  priority : ℚ
deriving DecidableEq, Repr

/-- Alternative candidate inside a prediction. -/
structure AltPrediction where
  category_id : Str
  category_name : Str
  confidence : ℚ
deriving DecidableEq, Repr

/-- Prediction returned by `predictCategory`. -/
structure CategoryPrediction where
  category_id : Str
  category_name : Str
  confidence : ℚ
  alternative : Option AltPrediction
deriving DecidableEq, Repr

-- ============================================
-- Categorizer : rule and keyword stages
-- ============================================

/-- Sorts custom rules by priority descending (stable, as JavaScript
`sort`). -/
def sortRulesDesc (rules : List CategoryRule) : List CategoryRule :=
  List.insertionSort (fun a b => b.priority ≤ a.priority) rules

/-- Stage 1 of `predictCategory`: the first rule (in priority order) whose
pattern matches and whose category exists produces the single
confidence-0.95 candidate; a matching rule without an existing category is
skipped and the scan continues. -/
def firstRuleMatch (ndesc : Str) (categories : List Category) :
    List CategoryRule → Option MatchResult
  | [] => none
  | rule :: rest =>
    if matchesPattern ndesc rule.pattern then
      match categories.find? (fun c => c.id == rule.category_id) with
      | some category =>
        some ⟨category.id, category.name, 95/100, some rule.pattern, .pattern⟩
      | none => firstRuleMatch ndesc categories rest
    else firstRuleMatch ndesc categories rest

/-- Stage 2 of `predictCategory`: one confidence-0.85 candidate per category
whose first matching keyword is contained in the normalized description. -/
def keywordMatches (categories : List Category) (ndesc : Str) : List MatchResult :=
  categories.filterMap (fun category =>
    (category.keywords.find? (fun keyword => strIncludes ndesc (normalizeText keyword))).map
      (fun keyword => ⟨category.id, category.name, 85/100, some keyword, .keyword⟩))

/-- Embeds the built-in `DEFAULT_KEYWORDS` dictionary (canonical Russian
category names to keyword lists), in source order. -/
def defaultKeywords : List (Str × List Str) :=
  [ (sl ("продукты"),
      ["магнит", "пятёрочка", "пятерочка", "перекрёсток", "перекресток",
       "ашан", "лента", "дикси", "вкусвилл", "азбука вкуса", "metro",
       "окей", "карусель", "супермаркет", "продукты", "гипермаркет",
       "spar", "билла", "billa", "fixprice", "фикспрайс"].map sl),
    (sl ("транспорт"),
      ["яндекс такси", "uber", "gett", "ситимобил", "такси", "метро",
       "бензин", "азс", "лукойл", "газпром", "роснефть", "shell", "bp",
       "парковка", "мойка", "автомойка", "шиномонтаж", "автосервис",
       "ржд", "аэрофлот", "s7", "победа", "билет", "каршеринг",
       "яндекс драйв", "делимобиль", "belka", "трансп"].map sl),
    (sl ("рестораны"),
      ["кафе", "ресторан", "бар", "пиццерия", "суши", "бургер",
       "макдоналдс", "mcdonalds", "kfc", "бургер кинг", "burger king",
       "subway", "pizza", "пицца", "coffee", "кофе", "starbucks",
       "якитория", "тануки", "delivery club", "яндекс еда", "самокат",
       "сбермаркет", "доставка еды"].map sl),
    (sl ("развлечения"),
      ["кино", "cinema", "театр", "концерт", "музей", "выставка",
       "netflix", "spotify", "youtube", "apple music", "подписка",
       "steam", "playstation", "xbox", "игра", "game", "кинопоиск",
       "иви", "okko", "premier", "more.tv", "билет"].map sl),
    (sl ("одежда"),
      ["zara", "h&m", "hm", "uniqlo", "reserved", "massimo dutti",
       "bershka", "pull&bear", "mango", "одежда", "обувь", "adidas",
       "nike", "puma", "reebok", "спортмастер", "декатлон", "rendez-vous",
       "ecco", "kari", "respect", "wildberries", "lamoda", "wb"].map sl),
    (sl ("здоровье"),
      ["аптека", "pharmacy", "лекарство", "витамины", "клиника",
       "поликлиника", "врач", "доктор", "анализы", "стоматолог",
       "госртолог", "окулист", "медицинский", "здоровье", "медси",
       "инвитро", "гемотест", "лаборатория"].map sl),
    (sl ("коммуналка"),
      ["жкх", "квартплата", "электричество", "газ", "вода", "отопление",
       "интернет", "телефон", "мобильная связь", "мтс", "билайн",
       "мегафон", "теле2", "tele2", "ростелеком", "аренда", "rent"].map sl),
    (sl ("образование"),
      ["курс", "обучение", "школа", "университет", "книга", "учебник",
       "skillbox", "geekbrains", "нетология", "coursera", "udemy",
       "литрес", "книжный", "библиотека"].map sl),
    (sl ("красота"),
      ["салон", "парикмахерская", "барбершоп", "маникюр", "педикюр",
       "spa", "спа", "массаж", "косметика", "л\x27этуаль", "letual",
       "рив гош", "иль де ботэ", "золотое яблоко", "sephora"].map sl),
    (sl ("зарплата"),
      ["зарплата", "зп", "аванс", "оклад", "премия", "бонус", "salary"].map sl),
    (sl ("фриланс"),
      ["фриланс", "freelance", "проект", "заказ", "контракт", "гонорар"].map sl),
    (sl ("кэшбэк"),
      ["кэшбэк", "cashback", "возврат", "refund", "бонусы"].map sl) ]

/-- One stage-3 step: if some keyword of the dictionary entry is contained
in the description, look up a category of the same normalized name and push
a confidence-0.75 candidate unless that category was already matched. -/
def stage3Step (categories : List Category) (ndesc : Str)
    (acc : List MatchResult) (entry : Str × List Str) : List MatchResult :=
  match entry.2.find? (fun keyword => strIncludes ndesc (normalizeText keyword)) with
  | none => acc
  | some keyword =>
    match categories.find? (fun c => normalizeText c.name == normalizeText entry.1) with
    | none => acc
    | some category =>
      if acc.any (fun m => m.categoryId == category.id) then acc
      else acc ++ [⟨category.id, category.name, 75/100, some keyword, .keyword⟩]

/-- Stage 3 of `predictCategory`: folds the dictionary entries over the
accumulated matches from stages 1 and 2. -/
def defaultKeywordMatches (categories : List Category) (ndesc : Str)
    (acc : List MatchResult) : List MatchResult :=
  defaultKeywords.foldl (stage3Step categories ndesc) acc

-- ============================================
-- Categorizer : similarity and history
-- ============================================

/-- Character bigrams of a string, in order and with repetitions. -/
def bigrams : Str → List Str
  | c :: d :: rest => [c, d] :: bigrams (d :: rest)
  | _ => []

/-- Embeds `calculateSimilarity(a, b)`: the Sørensen-Dice coefficient on
bigram sets; identical strings score 1, an empty side scores 0; two distinct
single-character strings divide zero by zero, hence `NaN`. -/
def calculateSimilarity (a b : Str) : JS ℚ :=
  if a = b then .num 1
  else if a.isEmpty || b.isEmpty then .num 0
  else
    let bigramsA := (bigrams a).dedup
    let bigramsB := (bigrams b).dedup
    let intersection := (bigramsA.filter (fun g => bigramsB.contains g)).length
    jsDivQ (2 * (intersection : ℚ)) ((bigramsA.length : ℚ) + (bigramsB.length : ℚ))

/-- Embeds `areSimilar(a, b)` with the default threshold 0.7: containment in
either direction, or Dice similarity at least 0.7 (false on `NaN`). -/
def areSimilar (a b : Str) : Bool :=
  strIncludes a b || strIncludes b a || jsGeC (calculateSimilarity a b) (7/10)

/-- Increments the per-category counter inside one description group. -/
def bumpInner (cid : Str) : List (Str × ℕ) → List (Str × ℕ)
  | [] => [(cid, 1)]
  | (k, n) :: rest =>
    if k = cid then (k, n + 1) :: rest else (k, n) :: bumpInner cid rest

/-- Increments the nested description/category counter
(`descriptionCounts[normalized][categoryId]`), insertion-ordered. -/
def bumpOuter (dkey cid : Str) :
    List (Str × List (Str × ℕ)) → List (Str × List (Str × ℕ))
  | [] => [(dkey, [(cid, 1)])]
  | (k, inner) :: rest =>
    if k = dkey then (k, bumpInner cid inner) :: rest
    else (k, inner) :: bumpOuter dkey cid rest

/-- Scans the flattened count entries: the grand total, and the first
strictly-maximal category count (later equal counts do not replace). -/
def scanCounts (entries : List (Str × ℕ)) : Option (Str × ℕ) × ℕ :=
  entries.foldl
    (fun acc e =>
      (match acc.1 with
       | none => some e
       | some b => if b.2 < e.2 then some e else some b,
       acc.2 + e.2))
    (none, 0)

/-- Stage 4 of `predictCategory`, embedding `findHistoricalMatch`: tallies
categories of history entries whose normalized description is similar to the
input, requires a winning count of at least 2 and an existing category, and
scores `min(0.9, 0.5 + share * 0.4)`. -/
def findHistoricalMatch (description : Str) (transactions : List Transaction)
    (categories : List Category) : Option MatchResult :=
  let counts := transactions.foldl
    (fun acc tx =>
      if jsTruthyOptStr tx.description && jsTruthyOptStr tx.category_id then
        let normalized := normalizeText (tx.description.getD [])
        if areSimilar description normalized then
          bumpOuter normalized (tx.category_id.getD []) acc
        else acc
      else acc) []
  let scan := scanCounts ((counts.map (·.2)).flatten)
  match scan.1 with
  | none => none
  | some best =>
    if best.2 < 2 then none
    else
      match categories.find? (fun c => c.id == best.1) with
      | none => none
      | some category =>
        let confidence := min (9/10) (1/2 + ((best.2 : ℚ) / (scan.2 : ℚ)) * (4/10))
        some ⟨category.id, category.name, confidence, none, .history⟩

/-- One step of the best-fuzzy-match fold: keep the category when its Dice
score against the description strictly exceeds both 0.6 and the current
best. A non-finite score never exceeds the threshold (`NaN > 0.6` is false,
and a zero denominator forces a zero numerator, so `Infinity` cannot
arise). -/
def fuzzyStep (description : Str) (best : Option (Category × ℚ))
    (category : Category) : Option (Category × ℚ) :=
  match calculateSimilarity description (normalizeText category.name) with
  | .num q =>
    if decide ((6/10 : ℚ) < q) &&
        (match best with
         | none => true
         | some p => decide (p.2 < q)) then some (category, q)
    else best
  | _ => best

/-- Stage 5 of `predictCategory`, embedding `fuzzyMatchCategory`: the best
category-name Dice score strictly above 0.6, at confidence `score * 0.6`. -/
def fuzzyMatchCategory (description : Str) (categories : List Category) :
    Option MatchResult :=
  (categories.foldl (fuzzyStep description) none).map
    (fun p => ⟨p.1.id, p.1.name, p.2 * (6/10), none, .fuzzy⟩)

-- ============================================
-- Categorizer : main prediction function
-- ============================================

/-- Descending-confidence order of the final stable sort
(`(a, b) => b.confidence - a.confidence`). -/
def confGe (a b : MatchResult) : Prop := b.confidence ≤ a.confidence

instance : DecidableRel confGe := fun a b =>
  inferInstanceAs (Decidable (b.confidence ≤ a.confidence))

instance : IsTotal MatchResult confGe :=
  ⟨fun a b => le_total b.confidence a.confidence⟩

instance : IsTrans MatchResult confGe :=
  ⟨fun _ _ _ h1 h2 => le_trans h2 h1⟩

/-- The candidate list accumulated by stages 1-5 of `predictCategory` for an
already normalized description: rule match, per-category keywords, default
dictionary, historical match, and the fuzzy fallback only when everything
else produced nothing. -/
def collectMatches (normalizedDesc : Str) (categories : List Category)
    (historicalTransactions : List Transaction)
    (customRules : List CategoryRule) : List MatchResult :=
  let m4 := defaultKeywordMatches categories normalizedDesc
      ((firstRuleMatch normalizedDesc categories (sortRulesDesc customRules)).toList ++
        keywordMatches categories normalizedDesc) ++
    (findHistoricalMatch normalizedDesc historicalTransactions categories).toList
  if m4.isEmpty then m4 ++ (fuzzyMatchCategory normalizedDesc categories).toList
  else m4

/-- Embeds `predictCategory(description, categories, historicalTransactions,
customRules)`: the five candidate stages, a stable sort by confidence
descending, the best candidate as the prediction and the runner-up as the
alternative. -/
def predictCategory (description : Str) (categories : List Category)
    (historicalTransactions : List Transaction)
    (customRules : List CategoryRule) : Option CategoryPrediction :=
  if description.isEmpty || (trimStr description).isEmpty then none
  else
    match List.insertionSort confGe
      (collectMatches (normalizeText description) categories
        historicalTransactions customRules) with
    | [] => none
    | best :: rest =>
      some ⟨best.categoryId, best.categoryName, best.confidence,
        rest.head?.map (fun alt => ⟨alt.categoryId, alt.categoryName, alt.confidence⟩)⟩

-- ============================================
-- Theorems
-- ============================================

set_option maxRecDepth 200000

/-- C9: `linearRegression` raises `InvalidInput` if and only if the two
arrays have different lengths or fewer than 2 points are supplied; on every
equal-length input with at least 2 points it returns normally. -/
theorem C9_linearRegression_invalid_iff (xValues yValues : List ℚ) :
    linearRegression xValues yValues = .error .invalidInput ↔
      (xValues.length ≠ yValues.length ∨ xValues.length < 2) := by
  unfold linearRegression
  split_ifs with h
  · simp [h]
  · simp [h]

/-- C8: `detectAnomaliesIQR` with the default multiplier 1.5 on the history
`[10,12,11,13,12,10,11,14]` classifies 100 as an `extreme` anomaly and 13 as
not anomalous with severity `none`. -/
theorem C8_detectAnomaliesIQR_example :
    detectAnomaliesIQR 100 [10, 12, 11, 13, 12, 10, 11, 14] (3/2) = (true, .extreme) ∧
      detectAnomaliesIQR 13 [10, 12, 11, 13, 12, 10, 11, 14] (3/2) = (false, .none) := by
  constructor <;> with_unfolding_all rfl

/-- C2 counterexample: on the all-zero series `[0, 0]` the mean is 0 and
`analyzeTrend` reports a `NaN` volatility — the division
`stdDev / average` is not guarded, refuting the claim that every
division-by-zero case degrades to a finite value. -/
theorem C2_counterexample : (analyzeTrend [0, 0]).volatility = JS.nan := by
  have hv : calculateVariance [0, 0] = 0 := by with_unfolding_all rfl
  have hs : calculateStdDev [0, 0] = 0 := by
    unfold calculateStdDev
    rw [if_neg (by norm_num)]
    rw [hv]
    norm_num
  unfold analyzeTrend
  rw [if_neg (by norm_num)]
  simp only [hs]
  have ha : (listSum [0, 0] / (([0, 0] : List ℚ).length : ℚ) : ℚ) = 0 := by
    with_unfolding_all rfl
  simp only [ha]
  unfold jsDivR
  norm_num [jsRound100R]

/-- C2 amended: whenever the mean of the series is nonzero, the volatility
reported by `analyzeTrend` is a finite number (and for fewer than 2 values
it is the finite 0); only the zero-mean case yields `NaN` or `±Infinity`. -/
theorem C2_volatility_finite_of_mean_ne_zero (values : List ℚ)
    (h : listMean values ≠ 0) :
    (analyzeTrend values).volatility.isFinite = true := by
  unfold analyzeTrend
  split_ifs with hlen
  · rfl
  · have havg : (listSum values / ((values.length : ℚ)) : ℚ) ≠ 0 := h
    have havgR : ((listSum values / ((values.length : ℚ)) : ℚ) : ℝ) ≠ 0 := by
      exact_mod_cast havg
    simp only [jsDivR, if_neg havgR, jsRound100R, JS.isFinite]

/-- C2 amended, witness at the concrete series `[1, 3]`. -/
theorem C2_volatility_finite_witness :
    listMean [1, 3] ≠ 0 ∧ (analyzeTrend [1, 3]).volatility.isFinite = true :=
  ⟨by with_unfolding_all decide,
    C2_volatility_finite_of_mean_ne_zero [1, 3] (by with_unfolding_all decide)⟩

/-- C5 amended: `detectTransactionAnomalies` equals the assembly that runs
the high-amount, category-IQR and unusual-category checks on the
lookback-window expense history excluding the transaction itself, and the
same-day frequency check on the complete unfiltered history. -/
theorem C5_checks_split (transaction : Transaction)
    (historicalTransactions : List Transaction) (categories : List Category)
    (config : AnomalyDetectionConfig) (now : SimpleDate) :
    detectTransactionAnomalies transaction historicalTransactions categories config now =
      detectChecksSplit transaction
        (relevantHistory transaction config now historicalTransactions)
        historicalTransactions categories config := rfl

-- ============================================
-- Concrete inputs for counterexamples and witnesses
-- ============================================

/-- An expense of 1000 in category `c1`, analyzed by the anomaly detector. -/
def txCat : Transaction :=
  ⟨sl ("t0"), .expense, 1000, some (sl ("c1")), ⟨2024, 6, 15⟩, false, none, none⟩

/-- Four 100-unit expenses in category `c1`, dated 2024-06-01. -/
def histCat : List Transaction :=
  [⟨sl ("h1"), .expense, 100, some (sl ("c1")), ⟨2024, 6, 1⟩, false, none, none⟩,
   ⟨sl ("h2"), .expense, 100, some (sl ("c1")), ⟨2024, 6, 1⟩, false, none, none⟩,
   ⟨sl ("h3"), .expense, 100, some (sl ("c1")), ⟨2024, 6, 1⟩, false, none, none⟩,
   ⟨sl ("h4"), .expense, 100, some (sl ("c1")), ⟨2024, 6, 1⟩, false, none, none⟩]

/-- Default configuration with `min_transactions` lowered to 1. -/
def cfgCat : AnomalyDetectionConfig := ⟨5/2, 90, 1, 3/2⟩

/-- An uncategorized expense of 50 on 2024-06-15. -/
def txFreq : Transaction :=
  ⟨sl ("t0"), .expense, 50, none, ⟨2024, 6, 15⟩, false, none, none⟩

/-- Twelve income transactions on the same day 2024-06-15. -/
def histFreq : List Transaction :=
  (List.range 12).map (fun i =>
    ⟨sl ("h" ++ toString i), .income, 10, none, ⟨2024, 6, 15⟩, false, none, none⟩)

/-- A categorized expense of 100 inside the current month. -/
def txBud : Transaction :=
  ⟨sl ("t1"), .expense, 100, some (sl ("c1")), ⟨2024, 6, 5⟩, false, none, none⟩

/-- An active budget of 50 with no `category_id` and alert threshold 80. -/
def budNoCat : Budget := ⟨sl ("b1"), none, sl ("общий"), 50, 80, true⟩

-- ============================================
-- Theorems C1, C4, C5 (continued)
-- ============================================

/-- C5 counterexample: on an expense whose history consists of twelve
same-day income transactions, `detectTransactionAnomalies` emits a frequency
anomaly, but on the windowed expense history (which is empty) it emits
nothing — so the frequency check is not computed from the filtered history
the claim describes. -/
theorem C5_counterexample :
    detectTransactionAnomalies txFreq histFreq [] defaultAnomalyConfig ⟨2024, 6, 20⟩ ≠
      detectTransactionAnomalies txFreq
        (relevantHistory txFreq defaultAnomalyConfig ⟨2024, 6, 20⟩ histFreq) []
        defaultAnomalyConfig ⟨2024, 6, 20⟩ := by
  have hrel : relevantHistory txFreq defaultAnomalyConfig ⟨2024, 6, 20⟩ histFreq = [] := by
    with_unfolding_all rfl
  have hHA : detectHighAmount txFreq [] defaultAnomalyConfig = none := by
    unfold detectHighAmount
    norm_num [defaultAnomalyConfig]
  have hUC : detectUnusualCategory txFreq [] [] defaultAnomalyConfig = none := by
    with_unfolding_all rfl
  have hFR : detectFrequencyAnomaly txFreq histFreq defaultAnomalyConfig =
      some ⟨.frequency, .warning, none, none, none, some 13, none, some (.num 0), none⟩ := by
    with_unfolding_all rfl
  have hFR0 : detectFrequencyAnomaly txFreq [] defaultAnomalyConfig = none := by
    with_unfolding_all rfl
  have htx : jsTruthyOptStr txFreq.category_id = false := by with_unfolding_all rfl
  have htype : txFreq.ttype = TxType.expense := rfl
  have hrel0 : relevantHistory txFreq defaultAnomalyConfig ⟨2024, 6, 20⟩ [] = [] := rfl
  unfold detectTransactionAnomalies
  rw [hrel, hrel0]
  simp [htype, htx, hHA, hUC, hFR, hFR0]

/-- C1 counterexample: with identical explicit arguments, two calls of
`detectTransactionAnomalies` made at wall-clock dates 2024-06-20 and
2025-06-20 return different results (a category anomaly versus nothing),
because the source reads `new Date()` internally for the lookback cutoff —
the output is not a pure function of the explicit inputs alone. -/
theorem C1_counterexample :
    detectTransactionAnomalies txCat histCat [] cfgCat ⟨2024, 6, 20⟩ ≠
      detectTransactionAnomalies txCat histCat [] cfgCat ⟨2025, 6, 20⟩ := by
  have hrel1 : relevantHistory txCat cfgCat ⟨2024, 6, 20⟩ histCat = histCat := by
    with_unfolding_all rfl
  have hrel2 : relevantHistory txCat cfgCat ⟨2025, 6, 20⟩ histCat = [] := by
    with_unfolding_all rfl
  have hHA : detectHighAmount txCat histCat cfgCat = none := by
    unfold detectHighAmount isAnomalyZ
    norm_num [cfgCat, histCat, txCat]
  have hHA2 : detectHighAmount txCat [] cfgCat = none := by
    unfold detectHighAmount
    norm_num [cfgCat]
  have hCA : detectCategoryAnomaly txCat histCat cfgCat =
      some ⟨.unusual_category, .alert, some (sl ("t0")), some (sl ("категории")),
        some 100, some 1000, none, some (.num 100), none⟩ := by
    with_unfolding_all rfl
  have hCA2 : detectCategoryAnomaly txCat [] cfgCat = none := by
    with_unfolding_all rfl
  have hUC : detectUnusualCategory txCat histCat [] cfgCat = none := by
    with_unfolding_all rfl
  have hUC2 : detectUnusualCategory txCat [] [] cfgCat = none := by
    with_unfolding_all rfl
  have hFR : detectFrequencyAnomaly txCat histCat cfgCat = none := by
    with_unfolding_all rfl
  have htx : jsTruthyOptStr txCat.category_id = true := by with_unfolding_all rfl
  have htype : txCat.ttype = TxType.expense := rfl
  unfold detectTransactionAnomalies
  rw [hrel1, hrel2]
  simp [htype, htx, hHA, hHA2, hCA, hCA2, hUC, hUC2, hFR]

/-- C1 amended: the wall-clock date influences `detectTransactionAnomalies`
only through the lookback-window membership of the history — two calls with
identical explicit inputs whose cutoffs classify every historical
transaction identically return identical results (and the remaining engine
functions carry no `now` parameter at all). -/
theorem C1_clock_only_through_window (transaction : Transaction)
    (hist : List Transaction) (cats : List Category)
    (cfg : AnomalyDetectionConfig) (now now' : SimpleDate)
    (h : ∀ t ∈ hist, dateLe (subDays now cfg.lookback_days) t.date =
      dateLe (subDays now' cfg.lookback_days) t.date) :
    detectTransactionAnomalies transaction hist cats cfg now =
      detectTransactionAnomalies transaction hist cats cfg now' := by
  unfold detectTransactionAnomalies
  have hrel : relevantHistory transaction cfg now hist =
      relevantHistory transaction cfg now' hist := by
    unfold relevantHistory
    refine List.filter_congr ?_
    intro t ht
    rw [h t ht]
  rw [hrel]

/-- C1 amended, witness: two distinct wall-clock dates one day apart whose
windows agree on the concrete history give identical outputs. -/
theorem C1_clock_witness :
    (∀ t ∈ histCat, dateLe (subDays ⟨2024, 6, 20⟩ cfgCat.lookback_days) t.date =
      dateLe (subDays ⟨2024, 6, 21⟩ cfgCat.lookback_days) t.date) ∧
    detectTransactionAnomalies txCat histCat [] cfgCat ⟨2024, 6, 20⟩ =
      detectTransactionAnomalies txCat histCat [] cfgCat ⟨2024, 6, 21⟩ :=
  ⟨by with_unfolding_all decide,
    C1_clock_only_through_window txCat histCat [] cfgCat ⟨2024, 6, 20⟩ ⟨2024, 6, 21⟩
      (by with_unfolding_all decide)⟩

/-- C4: the code evaluated at the failing input. A category-less active
budget of 50 together with a single categorized expense of 100 in the
current month yields `spent = 0` for the budget (the strict equality
`t.category_id === budget.category_id` matches only uncategorized
transactions), so the budget counts as on track and no alert fires, while
the sum over every expense of the period is 100 > 50. -/
theorem C4_code_behavior :
    budgetSpent budNoCat [txBud] = 0 ∧
    listSum (([txBud].filter (fun t => t.ttype == TxType.expense)).map (·.amount)) = 100 ∧
    (calculateMetrics [txBud] [budNoCat] [] ⟨2024, 6, 20⟩).budgets_on_track = 1 ∧
    (calculateMetrics [txBud] [budNoCat] [] ⟨2024, 6, 20⟩).budgets_exceeded = 0 ∧
    getBudgetAlerts [budNoCat] [txBud] = [] := by
  refine ⟨by with_unfolding_all rfl, by with_unfolding_all rfl, ?_, ?_,
    by with_unfolding_all rfl⟩
  · show (calculateMetrics [txBud] [budNoCat] [] ⟨2024, 6, 20⟩).budgets_on_track = 1
    unfold calculateMetrics
    with_unfolding_all rfl
  · show (calculateMetrics [txBud] [budNoCat] [] ⟨2024, 6, 20⟩).budgets_exceeded = 0
    unfold calculateMetrics
    with_unfolding_all rfl


-- ============================================
-- Bounds of the health sub-scores (toward C3)
-- ============================================

/-- The savings sub-score lies in `[0, 100]` for every metrics record. -/
theorem savingsScore_bounds (m : HealthMetrics) :
    0 ≤ calculateSavingsScore m ∧ calculateSavingsScore m ≤ 100 := by
  unfold calculateSavingsScore
  dsimp only
  split_ifs with h1 h2 h3 h4
  · norm_num
  · constructor <;> (ring_nf; linarith)
  · constructor <;> (ring_nf; linarith)
  · constructor <;> (ring_nf; linarith)
  · constructor
    · exact le_max_left _ _
    · apply max_le <;> (ring_nf; linarith)

/-- The budget sub-score lies in `[0, 100]` whenever the adherence rate is
nonnegative. -/
theorem budgetScore_bounds (m : HealthMetrics)
    (h0 : 0 ≤ m.budget_adherence_rate) :
    0 ≤ calculateBudgetScore m ∧ calculateBudgetScore m ≤ 100 := by
  unfold calculateBudgetScore
  dsimp only
  split_ifs with h1 h2 h3 h4
  · norm_num
  · norm_num
  · constructor <;> (ring_nf; linarith)
  · constructor <;> (ring_nf; linarith)
  · constructor <;> (ring_nf; linarith)

/-- The debt sub-score lies in `[0, 100]` for every metrics record. -/
theorem debtScore_bounds (m : HealthMetrics) :
    0 ≤ calculateDebtScore m ∧ calculateDebtScore m ≤ 100 := by
  unfold calculateDebtScore
  dsimp only
  split_ifs with h1 h2 h3 h4
  · norm_num
  · norm_num
  · constructor <;> (ring_nf; linarith)
  · constructor <;> (ring_nf; linarith)
  · constructor
    · exact le_max_left _ _
    · apply max_le <;> (ring_nf; linarith)

/-- The stability sub-score lies in `[0, 100]` for every metrics record. -/
theorem stabilityScore_bounds (m : HealthMetrics) :
    0 ≤ calculateStabilityScore m ∧ calculateStabilityScore m ≤ 100 := by
  unfold calculateStabilityScore
  dsimp only
  refine ⟨le_max_left _ _, ?_⟩
  apply max_le
  · norm_num
  · split_ifs <;>
      first
        | (ring_nf; linarith)
        | (rw [sub_le_iff_le_add]; apply max_le <;> (ring_nf; linarith))

/-- The adherence rate produced by `calculateMetrics` is nonnegative. -/
theorem metrics_adherence_nonneg (transactions : List Transaction)
    (budgets : List Budget) (goals : List Goal) (now : SimpleDate) :
    0 ≤ (calculateMetrics transactions budgets goals now).budget_adherence_rate := by
  unfold calculateMetrics
  dsimp only
  split_ifs with h
  · positivity
  · norm_num

/-- JavaScript rounding keeps a real in `[0, 100]` within the integer range
`[0, 100]`. -/
theorem jsRoundR_mem_bounds (x : ℝ) (h0 : 0 ≤ x) (h1 : x ≤ 100) :
    0 ≤ jsRoundR x ∧ jsRoundR x ≤ 100 := by
  unfold jsRoundR
  constructor
  · refine Int.le_floor.mpr ?_
    push_cast
    linarith
  · have hlt : (⌊x + 1/2⌋ : ℤ) < 101 := by
      refine Int.floor_lt.mpr ?_
      push_cast
      linarith
    omega

/-- C3: the four health-score weights sum to exactly 1, and for every input
(any transactions, budgets, goals, snapshots, and any wall-clock date) the
overall score returned by `analyzeFinancialHealth` lies within `[0, 100]`. -/
theorem C3_weights_and_overall_bounds :
    (WEIGHTS.savings + WEIGHTS.budget + WEIGHTS.debt + WEIGHTS.stability = 1) ∧
    ∀ (transactions : List Transaction) (budgets : List Budget)
      (goals : List Goal) (snapshots : List HealthSnapshot) (now : SimpleDate),
      0 ≤ (analyzeFinancialHealth transactions budgets goals snapshots now).score.overall ∧
        (analyzeFinancialHealth transactions budgets goals snapshots now).score.overall ≤ 100 := by
  constructor
  · norm_num [WEIGHTS]
  · intro transactions budgets goals snapshots now
    obtain ⟨hs0, hs1⟩ := savingsScore_bounds (calculateMetrics transactions budgets goals now)
    obtain ⟨hb0, hb1⟩ := budgetScore_bounds (calculateMetrics transactions budgets goals now)
      (metrics_adherence_nonneg transactions budgets goals now)
    obtain ⟨hd0, hd1⟩ := debtScore_bounds (calculateMetrics transactions budgets goals now)
    obtain ⟨ht0, ht1⟩ := stabilityScore_bounds (calculateMetrics transactions budgets goals now)
    have hs0' : (0:ℝ) ≤ (calculateSavingsScore (calculateMetrics transactions budgets goals now) : ℝ) := by
      exact_mod_cast hs0
    have hs1' : (calculateSavingsScore (calculateMetrics transactions budgets goals now) : ℝ) ≤ 100 := by
      exact_mod_cast hs1
    have hb0' : (0:ℝ) ≤ (calculateBudgetScore (calculateMetrics transactions budgets goals now) : ℝ) := by
      exact_mod_cast hb0
    have hb1' : (calculateBudgetScore (calculateMetrics transactions budgets goals now) : ℝ) ≤ 100 := by
      exact_mod_cast hb1
    have hd0' : (0:ℝ) ≤ (calculateDebtScore (calculateMetrics transactions budgets goals now) : ℝ) := by
      exact_mod_cast hd0
    have hd1' : (calculateDebtScore (calculateMetrics transactions budgets goals now) : ℝ) ≤ 100 := by
      exact_mod_cast hd1
    unfold analyzeFinancialHealth
    dsimp only
    simp only [WEIGHTS]
    refine jsRoundR_mem_bounds _ ?_ ?_
    · push_cast
      linarith
    · push_cast
      linarith

-- ============================================
-- Lemmas about the categorizer stages
-- ============================================

/-- The head of the confidence-sorted list is one of the candidates. -/
theorem sortConf_head_mem {l t : List MatchResult} {h : MatchResult}
    (hs : List.insertionSort confGe l = h :: t) : h ∈ l := by
  have hperm := List.perm_insertionSort confGe l
  refine hperm.subset ?_
  rw [hs]
  exact List.mem_cons_self h t

/-- Every candidate's confidence is at most the sorted head's confidence. -/
theorem sortConf_head_ge {l t : List MatchResult} {h : MatchResult}
    (hs : List.insertionSort confGe l = h :: t) :
    ∀ y ∈ l, y.confidence ≤ h.confidence := by
  intro y hy
  have hy' : y ∈ h :: t := by
    rw [← hs]
    exact ((List.perm_insertionSort confGe l).symm.subset) hy
  rcases List.mem_cons.mp hy' with rfl | hyt
  · exact le_refl _
  · have hsorted := List.sorted_insertionSort confGe l
    rw [hs] at hsorted
    exact List.rel_of_sorted_cons hsorted y hyt

/-- Every element of the sorted tail is bounded by the head's confidence. -/
theorem sortConf_tail_ge {l t : List MatchResult} {h : MatchResult}
    (hs : List.insertionSort confGe l = h :: t) :
    ∀ y ∈ t, y.confidence ≤ h.confidence := by
  intro y hy
  have hsorted := List.sorted_insertionSort confGe l
  rw [hs] at hsorted
  exact List.rel_of_sorted_cons hsorted y hy

/-- Every element of the sorted tail is one of the candidates. -/
theorem sortConf_tail_mem {l t : List MatchResult} {h : MatchResult}
    (hs : List.insertionSort confGe l = h :: t) :
    ∀ y ∈ t, y ∈ l := by
  intro y hy
  refine (List.perm_insertionSort confGe l).subset ?_
  rw [hs]
  exact List.mem_cons_of_mem h hy

/-- Characterization of a successful rule-stage scan: confidence 0.95 and a
matching rule whose category exists. -/
theorem firstRuleMatch_eq_some {ndesc : Str} {cats : List Category}
    {rules : List CategoryRule} {m : MatchResult}
    (h : firstRuleMatch ndesc cats rules = some m) :
    m.confidence = 95/100 ∧
      ∃ r ∈ rules, matchesPattern ndesc r.pattern = true ∧
        ∃ c ∈ cats, c.id = r.category_id ∧ m.categoryId = c.id := by
  induction rules with
  | nil => simp [firstRuleMatch] at h
  | cons a rest ih =>
    unfold firstRuleMatch at h
    by_cases hp : matchesPattern ndesc a.pattern
    · rw [if_pos hp] at h
      cases hf : cats.find? (fun c => c.id == a.category_id) with
      | some c =>
        rw [hf] at h
        injection h with h'
        subst h'
        have hpc := List.find?_some hf
        exact ⟨rfl, a, List.mem_cons_self a rest, hp,
          c, List.mem_of_find?_eq_some hf, beq_iff_eq.mp hpc, rfl⟩
      | none =>
        rw [hf] at h
        obtain ⟨hc, r, hr, hrest⟩ := ih h
        exact ⟨hc, r, List.mem_cons_of_mem a hr, hrest⟩
    · rw [if_neg hp] at h
      obtain ⟨hc, r, hr, hrest⟩ := ih h
      exact ⟨hc, r, List.mem_cons_of_mem a hr, hrest⟩

/-- Existence of a rule-stage result when some rule with an existing
category matches. -/
theorem firstRuleMatch_isSome {ndesc : Str} {cats : List Category}
    {rules : List CategoryRule}
    (h : ∃ r ∈ rules, matchesPattern ndesc r.pattern = true ∧
      ∃ c ∈ cats, c.id = r.category_id) :
    ∃ m, firstRuleMatch ndesc cats rules = some m := by
  induction rules with
  | nil =>
    obtain ⟨r, hr, _⟩ := h
    simp at hr
  | cons a rest ih =>
    unfold firstRuleMatch
    by_cases hp : matchesPattern ndesc a.pattern
    · rw [if_pos hp]
      cases hf : cats.find? (fun c => c.id == a.category_id) with
      | some c => exact ⟨_, rfl⟩
      | none =>
        apply ih
        obtain ⟨r, hr, hm, c, hc, hcid⟩ := h
        rcases List.mem_cons.mp hr with rfl | hr'
        · exfalso
          have hnone := List.find?_eq_none.mp hf c hc
          simp [hcid] at hnone
        · exact ⟨r, hr', hm, c, hc, hcid⟩
    · rw [if_neg hp]
      apply ih
      obtain ⟨r, hr, hm, hcat⟩ := h
      rcases List.mem_cons.mp hr with rfl | hr'
      · exact absurd hm (by simpa using hp)
      · exact ⟨r, hr', hm, hcat⟩

/-- Characterization of a keyword-stage candidate: confidence 0.85 and a
category with a matching keyword. -/
theorem keywordMatches_mem {cats : List Category} {ndesc : Str}
    {m : MatchResult} (h : m ∈ keywordMatches cats ndesc) :
    m.confidence = 85/100 ∧
      ∃ c ∈ cats, m.categoryId = c.id ∧
        ∃ k ∈ c.keywords, strIncludes ndesc (normalizeText k) = true := by
  unfold keywordMatches at h
  rw [List.mem_filterMap] at h
  obtain ⟨c, hc, hmap⟩ := h
  rw [Option.map_eq_some'] at hmap
  obtain ⟨k, hfind, hm⟩ := hmap
  subst hm
  have hik := List.find?_some hfind
  exact ⟨rfl, c, hc, rfl, k, List.mem_of_find?_eq_some hfind, hik⟩

/-- Existence of a keyword-stage candidate when some category keyword is
contained in the description. -/
theorem keywordMatches_exists {cats : List Category} {ndesc : Str}
    (h : ∃ c ∈ cats, ∃ k ∈ c.keywords,
      strIncludes ndesc (normalizeText k) = true) :
    ∃ m, m ∈ keywordMatches cats ndesc := by
  obtain ⟨c, hc, k, hk, hik⟩ := h
  have hsome : (c.keywords.find?
      (fun keyword => strIncludes ndesc (normalizeText keyword))).isSome := by
    rw [List.find?_isSome]
    exact ⟨k, hk, hik⟩
  obtain ⟨k', hk'⟩ := Option.isSome_iff_exists.mp hsome
  refine ⟨⟨c.id, c.name, 85/100, some k', .keyword⟩, ?_⟩
  unfold keywordMatches
  rw [List.mem_filterMap]
  exact ⟨c, hc, by rw [hk']; rfl⟩

/-- A stage-3 step only adds confidence-0.75 candidates. -/
theorem stage3Step_mem {cats : List Category} {ndesc : Str}
    {acc : List MatchResult} {e : Str × List Str} {m : MatchResult}
    (h : m ∈ stage3Step cats ndesc acc e) :
    m ∈ acc ∨ m.confidence = 75/100 := by
  unfold stage3Step at h
  cases hf1 : e.2.find? (fun keyword => strIncludes ndesc (normalizeText keyword)) with
  | none => rw [hf1] at h; exact .inl h
  | some k =>
    rw [hf1] at h
    cases hf2 : cats.find? (fun c => normalizeText c.name == normalizeText e.1) with
    | none => rw [hf2] at h; exact .inl h
    | some c =>
      rw [hf2] at h
      dsimp only at h
      split_ifs at h with hdup
      · exact .inl h
      · rcases List.mem_append.mp h with h1 | h2
        · exact .inl h1
        · right
          have : m = ⟨c.id, c.name, 75/100, some k, .keyword⟩ := by simpa using h2
          rw [this]

/-- A stage-3 step preserves already collected candidates. -/
theorem stage3Step_sub {cats : List Category} {ndesc : Str}
    {acc : List MatchResult} {e : Str × List Str} {m : MatchResult}
    (h : m ∈ acc) : m ∈ stage3Step cats ndesc acc e := by
  unfold stage3Step
  cases e.2.find? (fun keyword => strIncludes ndesc (normalizeText keyword)) with
  | none => exact h
  | some k =>
    cases cats.find? (fun c => normalizeText c.name == normalizeText e.1) with
    | none => exact h
    | some c =>
      dsimp only
      split_ifs with hdup
      · exact h
      · exact List.mem_append_left _ h

/-- Elements of the stage-3 fold: previously collected, or confidence
0.75. -/
theorem stage3_foldl_mem (cats : List Category) (ndesc : Str) :
    ∀ (entries : List (Str × List Str)) (acc : List MatchResult)
      (m : MatchResult), m ∈ entries.foldl (stage3Step cats ndesc) acc →
      m ∈ acc ∨ m.confidence = 75/100
  | [], _, _, h => .inl h
  | e :: es, acc, m, h => by
    rcases stage3_foldl_mem cats ndesc es (stage3Step cats ndesc acc e) m h with h1 | h2
    · exact stage3Step_mem h1
    · exact .inr h2

/-- The stage-3 fold preserves already collected candidates. -/
theorem stage3_foldl_sub (cats : List Category) (ndesc : Str) :
    ∀ (entries : List (Str × List Str)) (acc : List MatchResult)
      (m : MatchResult), m ∈ acc →
      m ∈ entries.foldl (stage3Step cats ndesc) acc
  | [], _, _, h => h
  | e :: es, acc, m, h =>
    stage3_foldl_sub cats ndesc es (stage3Step cats ndesc acc e) m (stage3Step_sub h)

/-- Elements of stage 3's output: from stages 1-2, or confidence 0.75. -/
theorem defaultKeywordMatches_mem {cats : List Category} {ndesc : Str}
    {acc : List MatchResult} {m : MatchResult}
    (h : m ∈ defaultKeywordMatches cats ndesc acc) :
    m ∈ acc ∨ m.confidence = 75/100 :=
  stage3_foldl_mem cats ndesc defaultKeywords acc m h

/-- Stage 3's output contains its input accumulator. -/
theorem defaultKeywordMatches_sub {cats : List Category} {ndesc : Str}
    {acc : List MatchResult} {m : MatchResult} (h : m ∈ acc) :
    m ∈ defaultKeywordMatches cats ndesc acc :=
  stage3_foldl_sub cats ndesc defaultKeywords acc m h

/-- A finite Dice similarity lies in `[0, 1]`. -/
theorem similarity_num_bounds {a b : Str} {q : ℚ}
    (h : calculateSimilarity a b = .num q) : 0 ≤ q ∧ q ≤ 1 := by
  unfold calculateSimilarity at h
  split_ifs at h with h1 h2
  · injection h with hq
    subst hq
    norm_num
  · injection h with hq
    subst hq
    norm_num
  · dsimp only at h
    unfold jsDivQ at h
    by_cases hz : ((bigrams a).dedup.length : ℚ) + ((bigrams b).dedup.length : ℚ) = 0
    · rw [if_pos hz] at h
      split_ifs at h
    · rw [if_neg hz] at h
      injection h with hq
      have hIA : ((bigrams a).dedup.filter
          (fun g => (bigrams b).dedup.contains g)).length ≤ (bigrams a).dedup.length :=
        List.length_filter_le _ _
      have hIB : ((bigrams a).dedup.filter
          (fun g => (bigrams b).dedup.contains g)).length ≤ (bigrams b).dedup.length := by
        have hnd : ((bigrams a).dedup.filter
            (fun g => (bigrams b).dedup.contains g)).Nodup :=
          (List.nodup_dedup _).filter _
        have hsub : ((bigrams a).dedup.filter
            (fun g => (bigrams b).dedup.contains g)) ⊆ (bigrams b).dedup := by
          intro g hg
          have hcont := (List.mem_filter.mp hg).2
          simpa using hcont
        exact (List.subperm_of_subset hnd hsub).length_le
      have hden : (0:ℚ) < ((bigrams a).dedup.length : ℚ) + ((bigrams b).dedup.length : ℚ) := by
        rcases lt_or_eq_of_le (by positivity :
          (0:ℚ) ≤ ((bigrams a).dedup.length : ℚ) + ((bigrams b).dedup.length : ℚ)) with hlt | heq
        · exact hlt
        · exact absurd heq.symm hz
      constructor
      · rw [← hq]
        positivity
      · rw [← hq, div_le_one hden]
        have h2IB : 2 * ((bigrams a).dedup.filter
            (fun g => (bigrams b).dedup.contains g)).length ≤
            (bigrams a).dedup.length + (bigrams b).dedup.length := by omega
        exact_mod_cast h2IB

/-- A successful historical match carries confidence in `[0.5, 0.9]`. -/
theorem findHistoricalMatch_bounds {d : Str} {txs : List Transaction}
    {cats : List Category} {m : MatchResult}
    (h : findHistoricalMatch d txs cats = some m) :
    1/2 ≤ m.confidence ∧ m.confidence ≤ 9/10 := by
  unfold findHistoricalMatch at h
  dsimp only at h
  split at h
  · exact absurd h (by simp)
  · split_ifs at h with hlt
    split at h
    · exact absurd h (by simp)
    · injection h with h'
      subst h'
      constructor
      · exact le_min (by norm_num) (le_add_of_nonneg_right (by positivity))
      · exact min_le_left _ _

/-- Invariant of the fuzzy-fold accumulator: scores lie in `[0, 1]`. -/
theorem fuzzyFold_inv (d : Str) :
    ∀ (cats : List Category) (acc : Option (Category × ℚ)),
      (∀ x, acc = some x → 0 ≤ x.2 ∧ x.2 ≤ 1) →
      ∀ x, cats.foldl (fuzzyStep d) acc = some x → 0 ≤ x.2 ∧ x.2 ≤ 1
  | [], _, hinv, x, h => hinv x h
  | c :: cs, acc, hinv, x, h => by
    refine fuzzyFold_inv d cs (fuzzyStep d acc c) ?_ x h
    intro y hy
    unfold fuzzyStep at hy
    cases hsim : calculateSimilarity d (normalizeText c.name) with
    | num q =>
      rw [hsim] at hy
      dsimp only at hy
      split_ifs at hy with hcond
      · injection hy with hy'
        subst hy'
        exact similarity_num_bounds hsim
      · exact hinv y hy
    | nan => rw [hsim] at hy; exact hinv y hy
    | inf => rw [hsim] at hy; exact hinv y hy
    | ninf => rw [hsim] at hy; exact hinv y hy

/-- A fuzzy-stage candidate carries confidence in `[0, 0.6]`. -/
theorem fuzzyMatchCategory_bounds {d : Str} {cats : List Category}
    {m : MatchResult} (h : fuzzyMatchCategory d cats = some m) :
    0 ≤ m.confidence ∧ m.confidence ≤ 6/10 := by
  unfold fuzzyMatchCategory at h
  rw [Option.map_eq_some'] at h
  obtain ⟨p, hp, hm⟩ := h
  obtain ⟨h0, h1⟩ := fuzzyFold_inv d cats none (by intro x hx; simp at hx) p hp
  subst hm
  constructor
  · exact mul_nonneg h0 (by norm_num)
  · calc p.2 * (6/10) ≤ 1 * (6/10) :=
        mul_le_mul_of_nonneg_right h1 (by norm_num)
    _ = 6/10 := by norm_num

/-- Case analysis over the collected candidates: each comes from one of the
five stages. -/
theorem collectMatches_cases {ndesc : Str} {cats : List Category}
    {hist : List Transaction} {rules : List CategoryRule} {m : MatchResult}
    (h : m ∈ collectMatches ndesc cats hist rules) :
    firstRuleMatch ndesc cats (sortRulesDesc rules) = some m ∨
    m ∈ keywordMatches cats ndesc ∨
    m.confidence = 75/100 ∨
    findHistoricalMatch ndesc hist cats = some m ∨
    fuzzyMatchCategory ndesc cats = some m := by
  have main : m ∈ defaultKeywordMatches cats ndesc
        ((firstRuleMatch ndesc cats (sortRulesDesc rules)).toList ++
          keywordMatches cats ndesc) ++
      (findHistoricalMatch ndesc hist cats).toList →
      firstRuleMatch ndesc cats (sortRulesDesc rules) = some m ∨
      m ∈ keywordMatches cats ndesc ∨
      m.confidence = 75/100 ∨
      findHistoricalMatch ndesc hist cats = some m ∨
      fuzzyMatchCategory ndesc cats = some m := by
    intro h4
    rcases List.mem_append.mp h4 with h3 | hh
    · rcases defaultKeywordMatches_mem h3 with h2 | h75
      · rcases List.mem_append.mp h2 with h1 | hkw
        · left
          cases hfr : firstRuleMatch ndesc cats (sortRulesDesc rules) with
          | none => rw [hfr] at h1; simp at h1
          | some x =>
            rw [hfr] at h1
            have : m = x := by simpa using h1
            rw [this]
        · exact .inr (.inl hkw)
      · exact .inr (.inr (.inl h75))
    · right; right; right; left
      cases hfh : findHistoricalMatch ndesc hist cats with
      | none => rw [hfh] at hh; simp at hh
      | some x =>
        rw [hfh] at hh
        have : m = x := by simpa using hh
        rw [this]
  unfold collectMatches at h
  dsimp only at h
  split_ifs at h with he
  · rcases List.mem_append.mp h with h4 | h5
    · exact main h4
    · right; right; right; right
      cases hf : fuzzyMatchCategory ndesc cats with
      | none => rw [hf] at h5; simp at h5
      | some x =>
        rw [hf] at h5
        have : m = x := by simpa using h5
        rw [this]
  · exact main h

/-- Every collected candidate's confidence lies in `[0, 1]`. -/
theorem collectMatches_conf_bounds {ndesc : Str} {cats : List Category}
    {hist : List Transaction} {rules : List CategoryRule} {m : MatchResult}
    (h : m ∈ collectMatches ndesc cats hist rules) :
    0 ≤ m.confidence ∧ m.confidence ≤ 1 := by
  rcases collectMatches_cases h with h1 | h2 | h3 | h4 | h5
  · rw [(firstRuleMatch_eq_some h1).1]
    norm_num
  · rw [(keywordMatches_mem h2).1]
    norm_num
  · rw [h3]
    norm_num
  · obtain ⟨ha, hb⟩ := findHistoricalMatch_bounds h4
    constructor <;> linarith
  · obtain ⟨ha, hb⟩ := fuzzyMatchCategory_bounds h5
    constructor <;> linarith

/-- Membership in the collected candidates from membership in the stage 1-4
aggregate. -/
theorem mem_collectMatches_of_mem_m4 {ndesc : Str} {cats : List Category}
    {hist : List Transaction} {rules : List CategoryRule} {m : MatchResult}
    (h : m ∈ defaultKeywordMatches cats ndesc
        ((firstRuleMatch ndesc cats (sortRulesDesc rules)).toList ++
          keywordMatches cats ndesc) ++
      (findHistoricalMatch ndesc hist cats).toList) :
    m ∈ collectMatches ndesc cats hist rules := by
  unfold collectMatches
  dsimp only
  split_ifs with he
  · exact List.mem_append_left _ h
  · exact h

-- ============================================
-- Theorems C6, C7, C10
-- ============================================

/-- C6: rule precedence. Whenever some custom rule whose category exists
among the categories matches the normalized description, and some category
keyword also matches it, the returned prediction is a matching rule's
category with confidence 0.95, which wins over the keyword confidence
0.85. -/
theorem C6_rule_precedence (description : Str) (categories : List Category)
    (historicalTransactions : List Transaction) (customRules : List CategoryRule)
    (hguard : (description.isEmpty || (trimStr description).isEmpty) = false)
    (hrule : ∃ r ∈ customRules,
      matchesPattern (normalizeText description) r.pattern = true ∧
        ∃ c ∈ categories, c.id = r.category_id)
    (_hkw : ∃ c ∈ categories, ∃ k ∈ c.keywords,
      strIncludes (normalizeText description) (normalizeText k) = true) :
    ∃ p, predictCategory description categories historicalTransactions customRules
        = some p ∧
      p.confidence = 95/100 ∧
      ∃ r ∈ customRules,
        matchesPattern (normalizeText description) r.pattern = true ∧
          ∃ c ∈ categories, c.id = r.category_id ∧ p.category_id = c.id := by
  have hperm := List.perm_insertionSort
    (fun a b : CategoryRule => b.priority ≤ a.priority) customRules
  have hrule' : ∃ r ∈ sortRulesDesc customRules,
      matchesPattern (normalizeText description) r.pattern = true ∧
        ∃ c ∈ categories, c.id = r.category_id := by
    obtain ⟨r, hr, hrest⟩ := hrule
    exact ⟨r, hperm.mem_iff.mpr hr, hrest⟩
  obtain ⟨mr, hmr⟩ := firstRuleMatch_isSome hrule'
  obtain ⟨hconf, r, hrmem, hrpat, c, hcmem, hcid, hmcat⟩ := firstRuleMatch_eq_some hmr
  have hmem : mr ∈ collectMatches (normalizeText description) categories
      historicalTransactions customRules := by
    refine mem_collectMatches_of_mem_m4 (List.mem_append_left _ ?_)
    refine defaultKeywordMatches_sub (List.mem_append_left _ ?_)
    rw [hmr]
    simp
  unfold predictCategory
  rw [if_neg (by simp [hguard])]
  cases hs : List.insertionSort confGe
      (collectMatches (normalizeText description) categories
        historicalTransactions customRules) with
  | nil =>
    exfalso
    have hp2 := List.perm_insertionSort confGe
      (collectMatches (normalizeText description) categories
        historicalTransactions customRules)
    rw [hs] at hp2
    rw [List.Perm.eq_nil hp2.symm] at hmem
    simp at hmem
  | cons best rest =>
    have hge := sortConf_head_ge hs mr hmem
    have hbest_eq : best = mr := by
      rcases collectMatches_cases (sortConf_head_mem hs) with h1 | h2 | h3 | h4 | h5
      · rw [hmr] at h1
        injection h1 with h1'
        exact h1'.symm
      · exfalso
        have h85 := (keywordMatches_mem h2).1
        rw [hconf] at hge
        rw [h85] at hge
        norm_num at hge
      · exfalso
        rw [hconf] at hge
        rw [h3] at hge
        norm_num at hge
      · exfalso
        have h90 := (findHistoricalMatch_bounds h4).2
        rw [hconf] at hge
        linarith
      · exfalso
        have h60 := (fuzzyMatchCategory_bounds h5).2
        rw [hconf] at hge
        linarith
    dsimp only
    refine ⟨_, rfl, ?_, r, hperm.mem_iff.mp hrmem, hrpat, c, hcmem, hcid, ?_⟩
    · rw [hbest_eq]
      exact hconf
    · rw [hbest_eq]
      exact hmcat

/-- C7 amended: for every nonblank normalized description containing a
normalized keyword of some category (with no history and no rules), the
prediction is one of the categories with a matching keyword, at confidence
0.85 (hence at least 0.75); when several categories match, only the first is
returned. -/
theorem C7_keyword_match_confidence (description : Str) (categories : List Category)
    (hnorm : normalizeText description = description)
    (hne : description ≠ [])
    (htrim : trimStr description = description)
    (hkw : ∃ c ∈ categories, ∃ k ∈ c.keywords,
      strIncludes description (normalizeText k) = true) :
    ∃ p, predictCategory description categories [] [] = some p ∧
      p.confidence = 85/100 ∧ 75/100 ≤ p.confidence ∧
      ∃ c ∈ categories, p.category_id = c.id ∧
        ∃ k ∈ c.keywords, strIncludes description (normalizeText k) = true := by
  have hkw' : ∃ c ∈ categories, ∃ k ∈ c.keywords,
      strIncludes (normalizeText description) (normalizeText k) = true := by
    rw [hnorm]
    exact hkw
  obtain ⟨mk, hmk⟩ := keywordMatches_exists hkw'
  have hmem : mk ∈ collectMatches (normalizeText description) categories [] [] := by
    refine mem_collectMatches_of_mem_m4 (List.mem_append_left _ ?_)
    exact defaultKeywordMatches_sub (List.mem_append_right _ hmk)
  have hguard : (description.isEmpty || (trimStr description).isEmpty) = false := by
    have h1 : description.isEmpty = false := by
      cases description with
      | nil => exact absurd rfl hne
      | cons a t => rfl
    rw [htrim, h1]
    rfl
  unfold predictCategory
  rw [if_neg (by simp [hguard])]
  cases hs : List.insertionSort confGe
      (collectMatches (normalizeText description) categories [] []) with
  | nil =>
    exfalso
    have hp2 := List.perm_insertionSort confGe
      (collectMatches (normalizeText description) categories [] [])
    rw [hs] at hp2
    rw [List.Perm.eq_nil hp2.symm] at hmem
    simp at hmem
  | cons best rest =>
    have hge := sortConf_head_ge hs mk hmem
    have h85 := (keywordMatches_mem hmk).1
    rw [h85] at hge
    rcases collectMatches_cases (sortConf_head_mem hs) with h1 | h2 | h3 | h4 | h5
    · exfalso
      have : firstRuleMatch (normalizeText description) categories
          (sortRulesDesc []) = none := rfl
      rw [this] at h1
      injection h1
    · obtain ⟨hc85, c, hcmem, hcid, k, hkmem, hkinc⟩ := keywordMatches_mem h2
      rw [hnorm] at hkinc
      dsimp only
      exact ⟨_, rfl, hc85, by rw [hc85]; norm_num, c, hcmem, hcid, k, hkmem, hkinc⟩
    · exfalso
      rw [h3] at hge
      norm_num at hge
    · exfalso
      have : findHistoricalMatch (normalizeText description) [] categories = none := rfl
      rw [this] at h4
      injection h4
    · exfalso
      have h60 := (fuzzyMatchCategory_bounds h5).2
      linarith

/-- C7 counterexample: with two categories each owning a keyword contained
in the description, `predictCategory` returns the first (`Alpha`), so the
claim "returns that category" is false for the second (`Beta`) even though
its keyword matches. -/
theorem C7_counterexample :
    (sl ("bar")) ∈ (⟨sl ("cb"), sl ("Beta"), [sl ("bar")]⟩ : Category).keywords ∧
    strIncludes (sl ("foo bar")) (normalizeText (sl ("bar"))) = true ∧
    normalizeText (sl ("foo bar")) = sl ("foo bar") ∧
    (predictCategory (sl ("foo bar"))
        [⟨sl ("ca"), sl ("Alpha"), [sl ("foo")]⟩, ⟨sl ("cb"), sl ("Beta"), [sl ("bar")]⟩] [] []).map
      (fun p => p.category_id) = some (sl ("ca")) ∧
    ¬((predictCategory (sl ("foo bar"))
        [⟨sl ("ca"), sl ("Alpha"), [sl ("foo")]⟩, ⟨sl ("cb"), sl ("Beta"), [sl ("bar")]⟩] [] []).map
      (fun p => p.category_id) = some (sl ("cb"))) := by
  refine ⟨by with_unfolding_all decide, by with_unfolding_all decide,
    by with_unfolding_all decide, ?_, ?_⟩
  · with_unfolding_all rfl
  · rw [show (predictCategory (sl ("foo bar"))
        [⟨sl ("ca"), sl ("Alpha"), [sl ("foo")]⟩, ⟨sl ("cb"), sl ("Beta"), [sl ("bar")]⟩] [] []).map
      (fun p => p.category_id) = some (sl ("ca")) from by with_unfolding_all rfl]
    with_unfolding_all decide

/-- C7 amended, witness at a single category with a matching keyword. -/
theorem C7_keyword_witness :
    (normalizeText (sl ("foo")) = sl ("foo") ∧ sl ("foo") ≠ [] ∧
      trimStr (sl ("foo")) = sl ("foo") ∧
      (∃ c ∈ [(⟨sl ("ca"), sl ("Alpha"), [sl ("foo")]⟩ : Category)], ∃ k ∈ c.keywords,
        strIncludes (sl ("foo")) (normalizeText k) = true)) ∧
    ∃ p, predictCategory (sl ("foo")) [⟨sl ("ca"), sl ("Alpha"), [sl ("foo")]⟩] [] [] = some p ∧
      p.confidence = 85/100 ∧ 75/100 ≤ p.confidence ∧
      ∃ c ∈ [(⟨sl ("ca"), sl ("Alpha"), [sl ("foo")]⟩ : Category)], p.category_id = c.id ∧
        ∃ k ∈ c.keywords, strIncludes (sl ("foo")) (normalizeText k) = true :=
  ⟨⟨by with_unfolding_all decide, by with_unfolding_all decide,
      by with_unfolding_all decide, by with_unfolding_all decide⟩,
    C7_keyword_match_confidence (sl ("foo")) [⟨sl ("ca"), sl ("Alpha"), [sl ("foo")]⟩]
      (by with_unfolding_all decide) (by with_unfolding_all decide)
      (by with_unfolding_all decide) (by with_unfolding_all decide)⟩

/-- C6, witness: a rule on `пушкин` with an existing category and a
category keyword `кафе` both match the description; the rule's category is
returned at confidence 0.95. -/
theorem C6_rule_witness :
    (((sl ("кафе пушкин")).isEmpty || (trimStr (sl ("кафе пушкин"))).isEmpty) = false ∧
      (∃ r ∈ [(⟨sl ("cb"), sl ("пушкин"), 5⟩ : CategoryRule)],
        matchesPattern (normalizeText (sl ("кафе пушкин"))) r.pattern = true ∧
          ∃ c ∈ [(⟨sl ("cb"), sl ("Рестораны"), []⟩ : Category),
              ⟨sl ("ca"), sl ("Кафе"), [sl ("кафе")]⟩], c.id = r.category_id) ∧
      (∃ c ∈ [(⟨sl ("cb"), sl ("Рестораны"), []⟩ : Category),
          ⟨sl ("ca"), sl ("Кафе"), [sl ("кафе")]⟩], ∃ k ∈ c.keywords,
        strIncludes (normalizeText (sl ("кафе пушкин"))) (normalizeText k) = true)) ∧
    ∃ p, predictCategory (sl ("кафе пушкин"))
        [⟨sl ("cb"), sl ("Рестораны"), []⟩, ⟨sl ("ca"), sl ("Кафе"), [sl ("кафе")]⟩] []
        [⟨sl ("cb"), sl ("пушкин"), 5⟩] = some p ∧
      p.confidence = 95/100 ∧
      ∃ r ∈ [(⟨sl ("cb"), sl ("пушкин"), 5⟩ : CategoryRule)],
        matchesPattern (normalizeText (sl ("кафе пушкин"))) r.pattern = true ∧
          ∃ c ∈ [(⟨sl ("cb"), sl ("Рестораны"), []⟩ : Category),
              ⟨sl ("ca"), sl ("Кафе"), [sl ("кафе")]⟩], c.id = r.category_id ∧
            p.category_id = c.id :=
  ⟨⟨by with_unfolding_all decide, by with_unfolding_all decide,
      by with_unfolding_all decide⟩,
    C6_rule_precedence (sl ("кафе пушкин"))
      [⟨sl ("cb"), sl ("Рестораны"), []⟩, ⟨sl ("ca"), sl ("Кафе"), [sl ("кафе")]⟩] []
      [⟨sl ("cb"), sl ("пушкин"), 5⟩]
      (by with_unfolding_all decide) (by with_unfolding_all decide)
      (by with_unfolding_all decide)⟩

/-- C10: every non-null prediction has confidence in `[0, 1]`, and when an
alternative is present its confidence is at most the main prediction's and
also lies in `[0, 1]`. -/
theorem C10_prediction_invariants (description : Str) (categories : List Category)
    (historicalTransactions : List Transaction) (customRules : List CategoryRule)
    (p : CategoryPrediction)
    (h : predictCategory description categories historicalTransactions customRules
      = some p) :
    0 ≤ p.confidence ∧ p.confidence ≤ 1 ∧
      ∀ a, p.alternative = some a →
        a.confidence ≤ p.confidence ∧ 0 ≤ a.confidence ∧ a.confidence ≤ 1 := by
  unfold predictCategory at h
  split_ifs at h with hg
  cases hs : List.insertionSort confGe
      (collectMatches (normalizeText description) categories
        historicalTransactions customRules) with
  | nil =>
    rw [hs] at h
    exact absurd h (by simp)
  | cons best rest =>
    rw [hs] at h
    dsimp only at h
    injection h with h'
    subst h'
    obtain ⟨hb0, hb1⟩ := collectMatches_conf_bounds (sortConf_head_mem hs)
    refine ⟨hb0, hb1, ?_⟩
    intro a ha
    dsimp only at ha
    rw [Option.map_eq_some'] at ha
    obtain ⟨alt, halt, hfa⟩ := ha
    have haltmem : alt ∈ rest := by
      rcases List.head?_eq_some_iff.mp halt with ⟨ys, hys⟩
      rw [hys]
      exact List.mem_cons_self alt ys
    obtain ⟨ha0, ha1⟩ := collectMatches_conf_bounds (sortConf_tail_mem hs alt haltmem)
    have hle := sortConf_tail_ge hs alt haltmem
    rw [← hfa]
    exact ⟨hle, ha0, ha1⟩

/-- C10, witness at a single-category keyword match. -/
theorem C10_prediction_witness :
    predictCategory (sl ("foo")) [⟨sl ("ca"), sl ("Alpha"), [sl ("foo")]⟩] [] [] =
      some ⟨sl ("ca"), sl ("Alpha"), 85/100, none⟩ ∧
    (0 ≤ (⟨sl ("ca"), sl ("Alpha"), 85/100, none⟩ : CategoryPrediction).confidence ∧
      (⟨sl ("ca"), sl ("Alpha"), 85/100, none⟩ : CategoryPrediction).confidence ≤ 1 ∧
      ∀ a, (⟨sl ("ca"), sl ("Alpha"), 85/100, none⟩ : CategoryPrediction).alternative
          = some a →
        a.confidence ≤ (⟨sl ("ca"), sl ("Alpha"), 85/100, none⟩ : CategoryPrediction).confidence ∧
          0 ≤ a.confidence ∧ a.confidence ≤ 1) :=
  ⟨by with_unfolding_all rfl,
    C10_prediction_invariants (sl ("foo")) [⟨sl ("ca"), sl ("Alpha"), [sl ("foo")]⟩] [] []
      ⟨sl ("ca"), sl ("Alpha"), 85/100, none⟩ (by with_unfolding_all rfl)⟩

end FamilyFinance
